import Mathlib

/-!
# OpenBR algorithm core (`openbr/core/core.cpp`)

A shallow embedding of `br::AlgorithmCore` and `AlgorithmManager`.

Stages (`Transform`) and distances (`Distance`) are plugin objects that the core only
creates, stores, serialises and hands on; they are type parameters `T` and `D` here, and
everything the core calls on them is a field of `Plugins` (construction, persistence) or of
`Runtime` (enrollment, comparison).  A `QSharedPointer` is an `Option`: `none` is the null
pointer.  A `qFatal` ends the operation with a `Fatal`.

The operations on galleries run in a `Session`: the state `W` of the gallery store, which
only the collaborators of `Runtime` read and write, together with a log of the records
handed to the enrollment stage and of the blocks written to galleries.  The pipelines that
`enroll` and `compare` assemble are run by `runEnrollPipeline` and `runComparePipeline`,
which stand for stages defined elsewhere in the repository.  Two files are equal when
their names and their metadata are; a file equals a C string when its name does.
-/

namespace br

/-! ## Fatal conditions -/

/-- The ways an operation of the core can end without a result. -/
inductive Fatal
  /-- The text `Invalid algorithm format.` of `init`. -/
  | invalidAlgorithmFormat
  /-- The text `No default algorithm set.` of `getAlgorithm`. -/
  | noDefaultAlgorithm
  /-- The text `Null transform.` -/
  | nullTransform
  /-- The text `Null distance.` -/
  | nullDistance
  /-- The text `Dimension mismatch in pairwise compare`. -/
  | dimensionMismatch
  /-- A null pointer or an out-of-range index is dereferenced. -/
  | invalidAccess
  /-- A plugin factory (`Transform::make`, `Distance::make`, a deserialiser) gave up. -/
  | factory
  /-- A file that is to be read does not exist. -/
  | missingFile
  /-- The abbreviation table did not bottom out within the recursion depth granted. -/
  | depthExceeded
deriving DecidableEq, Repr

/-! ## Serialised data -/

/-- One item of a `QDataStream`. -/
inductive Datum
  | int32 (v : Int)
  | string (s : String)
  | bytes (b : List Nat)
deriving DecidableEq, Repr

/-- A `QByteArray` seen through a `QDataStream`: the items in writing order. -/
abbrev DataStream := List Datum

/-- The operator `in >> qint32`; a stream without an integer in front yields 0. -/
def readInt32 : DataStream → Int × DataStream
  | Datum.int32 v :: rest => (v, rest)
  | s => (0, s)

/-- The operator `in >> QString`; a stream without a string in front yields the empty string. -/
def readString : DataStream → String × DataStream
  | Datum.string s :: rest => (s, rest)
  | s => ("", s)

/-- The files the core reads and writes with `QtUtils::readFile` and `QtUtils::writeFile`,
by path.  Compression is transparent to the core and is left out. -/
abbrev FileSystem := List (String × DataStream)

/-- The test `QFileInfo(path).exists() && !QFileInfo(path).isDir()`. -/
def FileSystem.isFile (fs : FileSystem) (path : String) : Bool :=
  (fs.lookup path).isSome

/-- The call `QtUtils::writeFile(path, data, -1)`. -/
def FileSystem.writeFile (fs : FileSystem) (path : String) (data : DataStream) : FileSystem :=
  (path, data) :: fs

/-- The call `QtUtils::readFile(path, data, true)`. -/
def FileSystem.readFile (fs : FileSystem) (path : String) : Option DataStream :=
  fs.lookup path

/-! ## Collaborators -/

/-- What the core calls on the plugin layer and on `QtUtils`. -/
structure Plugins (T D : Type) where
  /-- The factory `Transform::make(description, NULL)`; `none` when it ends fatally. -/
  makeTransform : String → Option T
  /-- The factory `Distance::make(description, NULL)`; `none` when it ends fatally. -/
  makeDistance : String → Option D
  /-- The call `comparison->setPropertyRecursive("distance", distance)`. -/
  setDistance : T → D → T
  /-- The call `transform->simplify(newTForm)`: the stage returned and the flag. -/
  simplify : T → T × Bool
  /-- The call `transform->serialize(out)`: the items appended to the stream. -/
  serializeTransform : T → DataStream
  /-- The call `Transform::deserialize(in)`: the stage and the rest of the stream. -/
  deserializeTransform : DataStream → Option (T × DataStream)
  /-- The call `distance->serialize(out)`: the items appended to the stream. -/
  serializeDistance : D → DataStream
  /-- The call `distance->load(in)`: the loaded distance and the rest of the stream. -/
  loadDistance : D → DataStream → Option (D × DataStream)
  /-- The tokenizer `QtUtils::parse(description, split)`. -/
  parse : String → Char → List String
  /-- The suffix of `File("." + description)`. -/
  parsedSuffix : String → String
  /-- The call `applyAdditionalProperties(File("." + description), transform)`. -/
  applyAdditionalProperties : String → T → T

/-- The part of `Globals` that `init` reads. -/
structure Globals where
  sdkPath : String
  abbreviations : List (String × String)

/-! ## AlgorithmCore -/

/-- The enum `AlgorithmCore::CompareMode`. -/
inductive CompareMode
  | None
  | DistanceCompare
  | TransformCompare
deriving DecidableEq, Repr

/-- The `qint32` written for a mode. -/
def CompareMode.toInt32 : CompareMode → Int
  | CompareMode.None => 0
  | CompareMode.DistanceCompare => 1
  | CompareMode.TransformCompare => 2

/-- The data members of `struct AlgorithmCore`. -/
structure AlgorithmCore (T D : Type) where
  transform : Option T
  simplifiedTransform : Option T
  comparison : Option T
  distance : Option D
  progressCounter : Option T
  name : String
deriving DecidableEq, Repr

/-- A core whose members are all default-constructed: every pointer is null. -/
def AlgorithmCore.fresh (T D : Type) : AlgorithmCore T D :=
  { transform := none, simplifiedTransform := none, comparison := none, distance := none,
    progressCounter := none, name := "" }

/-- The method `AlgorithmCore::isClassifier`. -/
def AlgorithmCore.isClassifier {T D : Type} (c : AlgorithmCore T D) : Bool :=
  c.comparison.isNone

/-- The mode tag that `store` computes for a core. -/
def AlgorithmCore.storedMode {T D : Type} (c : AlgorithmCore T D) : CompareMode :=
  if c.distance.isSome then CompareMode.DistanceCompare
  else if c.comparison.isSome then CompareMode.TransformCompare
  else CompareMode.None

/-- The method `AlgorithmCore::simplifyTransform`. -/
def AlgorithmCore.simplifyTransform {T D : Type} (P : Plugins T D) (c : AlgorithmCore T D) :
    Except Fatal (AlgorithmCore T D) :=
  match c.transform with
  | none => Except.error Fatal.invalidAccess
  | some t => Except.ok { c with simplifiedTransform := some (P.simplify t).1 }

/-- The method `AlgorithmCore::store`: the file system after the model file is written. -/
def AlgorithmCore.store {T D : Type} (P : Plugins T D) (c : AlgorithmCore T D) (model : String)
    (fs : FileSystem) : Except Fatal FileSystem :=
  match c.transform with
  | none => Except.error Fatal.invalidAccess
  | some t =>
    let out0 := P.serializeTransform t
    let mode := c.storedMode
    let out1 := out0 ++ [Datum.int32 mode.toInt32]
    let out2 : Except Fatal DataStream :=
      if mode = CompareMode.DistanceCompare then
        match c.distance with
        | none => Except.error Fatal.invalidAccess
        | some d => Except.ok (out1 ++ P.serializeDistance d)
      else Except.ok out1
    match out2 with
    | Except.error e => Except.error e
    | Except.ok out2 =>
      let out3 : Except Fatal DataStream :=
        if mode = CompareMode.TransformCompare then
          match c.comparison with
          | none => Except.error Fatal.invalidAccess
          | some cmp => Except.ok (out2 ++ P.serializeTransform cmp)
        else Except.ok out2
      match out3 with
      | Except.error e => Except.error e
      | Except.ok out3 => Except.ok (fs.writeFile model out3)

/-- The distance branch of `load`: read the description, make the distance, load its state. -/
def loadDistanceFrom {T D : Type} (P : Plugins T D) (s : DataStream) : Option (D × DataStream) :=
  let (distanceDescription, s1) := readString s
  match P.makeDistance distanceDescription with
  | none => none
  | some d => P.loadDistance d s1

/-- The method `AlgorithmCore::load`. -/
def AlgorithmCore.load {T D : Type} (P : Plugins T D) (fs : FileSystem) (model : String)
    (c : AlgorithmCore T D) : Except Fatal (AlgorithmCore T D) :=
  match fs.readFile model with
  | none => Except.error Fatal.missingFile
  | some data =>
    match P.deserializeTransform data with
    | none => Except.error Fatal.factory
    | some (t, in1) =>
      let c1 := { c with transform := some t }
      let (mode, in2) := readInt32 in1
      let c2 : Except Fatal (AlgorithmCore T D × DataStream) :=
        if mode = CompareMode.DistanceCompare.toInt32 then
          match loadDistanceFrom P in2 with
          | none => Except.error Fatal.factory
          | some (d, in3) =>
            match P.makeTransform "GalleryCompare" with
            | none => Except.error Fatal.factory
            | some g =>
              Except.ok ({ c1 with distance := some d, comparison := some (P.setDistance g d) }, in3)
        else Except.ok (c1, in2)
      match c2 with
      | Except.error e => Except.error e
      | Except.ok (c2, in3) =>
        if mode = CompareMode.TransformCompare.toInt32 then
          match P.deserializeTransform in3 with
          | none => Except.error Fatal.factory
          | some (cmp, _) => Except.ok { c2 with comparison := some cmp }
        else Except.ok c2

/-- The body of `init` from the token-count check on, for the tokens `words` and the flag
`compareTransform` computed just before it. -/
def AlgorithmCore.initWords {T D : Type} (P : Plugins T D) (compareTransform : Bool)
    (words : List String) (c : AlgorithmCore T D) : Except Fatal (AlgorithmCore T D) :=
  if words.length < 1 ∨ words.length > 2 then Except.error Fatal.invalidAlgorithmFormat
  else
    match P.makeTransform (words.getD 0 "") with
    | none => Except.error Fatal.factory
    | some t =>
      match AlgorithmCore.simplifyTransform P { c with transform := some t } with
      | Except.error e => Except.error e
      | Except.ok c1 =>
        if words.length > 1 then
          if !compareTransform then
            match P.makeDistance (words.getD 1 "") with
            | none => Except.error Fatal.factory
            | some d =>
              match P.makeTransform "GalleryCompare" with
              | none => Except.error Fatal.factory
              | some g =>
                Except.ok { c1 with distance := some d, comparison := some (P.setDistance g d) }
          else
            match P.makeTransform (words.getD 1 "") with
            | none => Except.error Fatal.factory
            | some cmp => Except.ok { c1 with comparison := some cmp }
        else Except.ok c1

/-- The separator `init` splits a description on: `!` when it occurs, `:` otherwise. -/
def separatorOf (description : String) : Char :=
  if description.data.contains '!' then '!' else ':'

/-- The part of `init` after both `loadOrExpand` attempts: the description is parsed as a
fresh specification. -/
def AlgorithmCore.initParse {T D : Type} (P : Plugins T D) (description : String)
    (c : AlgorithmCore T D) : Except Fatal (AlgorithmCore T D) :=
  let compareTransform : Bool := description.data.contains '!'
  let words := P.parse description (if compareTransform then '!' else ':')
  AlgorithmCore.initWords P compareTransform words c

/-- The method `AlgorithmCore::loadOrExpand`, with the recursive call of `init` passed in.
The result is the returned flag and the core afterwards. -/
def AlgorithmCore.loadOrExpand {T D : Type} (P : Plugins T D) (G : Globals) (fs : FileSystem)
    (initRec : String → AlgorithmCore T D → Except Fatal (AlgorithmCore T D))
    (description : String) (c : AlgorithmCore T D) : Except Fatal (Bool × AlgorithmCore T D) :=
  let file0 := G.sdkPath ++ "/share/openbr/models/algorithms/" ++ description
  let file := if fs.isFile file0 then file0 else description
  if fs.isFile file then
    match AlgorithmCore.load P fs file c with
    | Except.error e => Except.error e
    | Except.ok c1 => Except.ok (true, c1)
  else
    match G.abbreviations.lookup description with
    | some expansion =>
      match initRec expansion c with
      | Except.error e => Except.error e
      | Except.ok c1 => Except.ok (true, c1)
    | none => Except.ok (false, c)

/-- The method `AlgorithmCore::init`.  The first argument bounds the depth of abbreviation
expansion, which the source leaves unbounded. -/
def AlgorithmCore.init {T D : Type} (P : Plugins T D) (G : Globals) (fs : FileSystem) :
    Nat → String → AlgorithmCore T D → Except Fatal (AlgorithmCore T D)
  | 0, _, _ => Except.error Fatal.depthExceeded
  | depth + 1, description, c =>
    match AlgorithmCore.loadOrExpand P G fs (AlgorithmCore.init P G fs depth) description c with
    | Except.error e => Except.error e
    | Except.ok (true, c1) => AlgorithmCore.simplifyTransform P c1
    | Except.ok (false, c1) =>
      match AlgorithmCore.loadOrExpand P G fs (AlgorithmCore.init P G fs depth)
          (P.parsedSuffix description) c1 with
      | Except.error e => Except.error e
      | Except.ok (true, c2) =>
        match c2.transform with
        | none => Except.error Fatal.invalidAccess
        | some t =>
          AlgorithmCore.simplifyTransform P
            { c2 with transform := some (P.applyAdditionalProperties description t) }
      | Except.ok (false, c2) => AlgorithmCore.initParse P description c2

/-- The constructor `AlgorithmCore::AlgorithmCore(name)`. -/
def AlgorithmCore.new {T D : Type} (P : Plugins T D) (G : Globals) (fs : FileSystem)
    (depth : Nat) (name : String) : Except Fatal (AlgorithmCore T D) :=
  match AlgorithmCore.init P G fs depth name { AlgorithmCore.fresh T D with name := name } with
  | Except.error e => Except.error e
  | Except.ok c =>
    match P.makeTransform "ProgressCounter" with
    | none => Except.error Fatal.factory
    | some pc => Except.ok { c with progressCounter := some pc }

/-! ## AlgorithmManager -/

/-- The container `QHash<QString, QSharedPointer<AlgorithmCore>>`: a core on the heap is
known by its address, and `none` is the null pointer. -/
abbrev AlgorithmHash := List (String × Option Nat)

/-- The method `QHash::contains`. -/
def AlgorithmHash.containsKey (h : AlgorithmHash) (key : String) : Bool :=
  (h.lookup key).isSome

/-- The method `QHash::insert`: the value of a key already present is replaced. -/
def AlgorithmHash.insertValue (h : AlgorithmHash) (key : String) (value : Option Nat) :
    AlgorithmHash :=
  (key, value) :: h.filter (fun e => e.1 ≠ key)

/-- The method `QHash::operator[]` of a mutable hash: a missing key is inserted with a null
value. -/
def AlgorithmHash.index (h : AlgorithmHash) (key : String) : Option Nat × AlgorithmHash :=
  match h.lookup key with
  | some v => (v, h)
  | none => (none, (key, none) :: h)

/-- The static state of `AlgorithmManager`, with the cores allocated so far by address. -/
structure AlgorithmManager (T D : Type) where
  algorithms : AlgorithmHash
  heap : List (AlgorithmCore T D)

/-- The static method `AlgorithmManager::getAlgorithm`.

`construct` is the expression `new AlgorithmCore(algorithm)`, which runs outside the lock:
it yields the candidate and the manager as it stands when the lock is taken, since the
construction can call `getAlgorithm` itself and other callers can insert meanwhile. -/
def AlgorithmManager.getAlgorithm {T D : Type}
    (construct : String → AlgorithmManager T D →
      Except Fatal (AlgorithmCore T D × AlgorithmManager T D))
    (algorithm : String) (m : AlgorithmManager T D) :
    Except Fatal (Option Nat × AlgorithmManager T D) :=
  if algorithm = "" then Except.error Fatal.noDefaultAlgorithm
  else if !m.algorithms.containsKey algorithm then
    match construct algorithm m with
    | Except.error e => Except.error e
    | Except.ok (core, m1) =>
      let algorithmCore := m1.heap.length
      let m2 : AlgorithmManager T D := { m1 with heap := m1.heap ++ [core] }
      let m3 : AlgorithmManager T D :=
        if !m2.algorithms.containsKey algorithm then
          { m2 with algorithms := m2.algorithms.insertValue algorithm (some algorithmCore) }
        else m2
      let r := m3.algorithms.index algorithm
      Except.ok (r.1, { m3 with algorithms := r.2 })
  else
    let r := m.algorithms.index algorithm
    Except.ok (r.1, { m with algorithms := r.2 })

/-- A construction that touches nothing but the candidate: the constructor alone. -/
def AlgorithmManager.constructAlone {T D : Type} (P : Plugins T D) (G : Globals)
    (fs : FileSystem) (depth : Nat) (algorithm : String) (m : AlgorithmManager T D) :
    Except Fatal (AlgorithmCore T D × AlgorithmManager T D) :=
  match AlgorithmCore.new P G fs depth algorithm with
  | Except.error e => Except.error e
  | Except.ok c => Except.ok (c, m)

/-! ## Files, record sets and the stages at work -/

/-- The class `br::File`: a name and its metadata. -/
structure File where
  name : String
  metadata : List (String × String)
deriving DecidableEq, Repr

/-- The default-constructed `File()`. -/
def File.null : File := { name := "", metadata := [] }

abbrev FileList := List File

/-- The class `br::Template`: a file and its feature payload, which the core never
looks into. -/
structure Template where
  file : File
  m : List Int
deriving DecidableEq, Repr

abbrev TemplateList := List Template

/-- The method `TemplateList::files`. -/
def TemplateList.files (l : TemplateList) : FileList := l.map (fun t => t.file)

/-- A score: a `float` in the source, which the core passes on and never computes with. -/
abbrev Score := Int

/-- What `enroll`, `retrieveOrEnroll` and `compare` call outside this file: the methods of
`File`, the gallery store (whose state is a `W`), and the stages at work. -/
structure Runtime (T D W : Type) where
  /-- The constructor `File(const QString &)`. -/
  toFile : String → File
  /-- The method `File::flat`. -/
  flat : File → String
  /-- The method `File::suffix`. -/
  suffix : File → String
  /-- The method `File::baseName`. -/
  baseName : File → String
  /-- The method `File::hash`. -/
  hash : File → String
  /-- The methods `File::getBool(key)` and `File::get<bool>(key, false)`. -/
  getBool : File → String → Bool
  /-- The method `File::contains(key)`. -/
  containsKey : File → String → Bool
  /-- The member `Globals->file`. -/
  globalsFile : File
  /-- The method `File::exists`. -/
  fileExists : W → File → Bool
  /-- The metadata-only read `FileList::fromGallery(file, true)`, and `Gallery::files`. -/
  files : W → File → FileList
  /-- The full read `TemplateList::fromGallery(file)`, and `Gallery::read`. -/
  read : W → File → TemplateList
  /-- The method `Gallery::writeBlock` on the gallery made for a file. -/
  writeBlock : W → File → TemplateList → W
  /-- The method `Gallery::totalSize` on the gallery made for a file. -/
  totalSize : W → File → Int
  /-- An enrollment stage at work on one record. -/
  project : T → Template → TemplateList
  /-- A comparison stage at work: trained on the resident records, it scores one incoming
  record against each of them. -/
  compareRow : T → TemplateList → Template → List Score
  /-- The escape hatch `distance->compare(targetGallery, queryGallery, output)`: whether the
  distance took the galleries itself.  What it then does with them is its own business. -/
  distanceCompareFiles : D → W → File → File → File → Bool

/-- The state the operations run in: the gallery store, and a log of every record that a
pipeline of the core hands to the enrollment stage and of every block that the core has
written to a gallery. -/
structure Session (W : Type) where
  world : W
  stageInput : List Template
  writes : List (File × TemplateList)

/-- The method `AlgorithmCore::getMemoryGallery`. -/
def AlgorithmCore.getMemoryGallery {T D W : Type} (R : Runtime T D W) (core : AlgorithmCore T D)
    (file : File) : File :=
  R.toFile (core.name ++ R.baseName file ++ R.hash file ++ ".mem")

/-- What `enroll` has assembled when it starts the stream. -/
structure EnrollPlan where
  input : File
  gallery : File
  multiProcess : Bool
  fileExclusion : Bool
  outputDesc : String
  total : Int
deriving DecidableEq, Repr

/-- The lines of `enroll` up to the assembly of the pipeline; `none` is the early
`return FileList()`. -/
def AlgorithmCore.enrollPlan {T D W : Type} (R : Runtime T D W) (core : AlgorithmCore T D)
    (input gallery : File) (w : W) : Option EnrollPlan :=
  let gallery? : Option File :=
    if gallery.name = "" then
      if input.name = "" then none
      else some (core.getMemoryGallery R input)
    else some gallery
  match gallery? with
  | none => none
  | some gallery =>
    let multiProcess := R.getBool R.globalsFile "multiProcess"
    let fileExclusion := R.containsKey gallery "append" && R.fileExists w gallery
    let outputDesc :=
      (if fileExclusion then "FileExclusion(" ++ R.flat gallery ++ ")+" else "") ++
        ("GalleryOutput(" ++ R.flat gallery ++ ")")
    some { input := input, gallery := gallery, multiProcess := multiProcess,
           fileExclusion := fileExclusion, outputDesc := outputDesc,
           total := R.totalSize w input }

/-- Modelled from the spec: the streamed enrollment pipeline, which is built from the
stages `Stream`, `ProcessWrapper`, `FileExclusion`, `GalleryOutput`, `ProgressCounter` and
`Discard` that live outside this file.  Every record of the input goes through the
enrollment stage (wrapped for worker processes or not), then through the exclusion filter
when there is one (a record whose name is already in the output gallery is skipped), then
into the gallery-writing sink; the result is the metadata of everything written. -/
def runEnrollPipeline {T D W : Type} (R : Runtime T D W) (stage : T) (plan : EnrollPlan)
    (s : Session W) : FileList × Session W :=
  let data := R.read s.world plan.input
  let enrolled := (data.map (R.project stage)).flatten
  let present := (R.files s.world plan.gallery).map (fun f => f.name)
  let kept :=
    if plan.fileExclusion then enrolled.filter (fun t => !present.contains t.file.name)
    else enrolled
  (TemplateList.files kept,
   { world := R.writeBlock s.world plan.gallery kept,
     stageInput := s.stageInput ++ data,
     writes := s.writes ++ [(plan.gallery, kept)] })

/-- The method `AlgorithmCore::enroll(File input, File gallery)`. -/
def AlgorithmCore.enroll {T D W : Type} (R : Runtime T D W) (core : AlgorithmCore T D)
    (input gallery : File) (s : Session W) : Except Fatal (FileList × Session W) :=
  match core.enrollPlan R input gallery s.world with
  | none => Except.ok ([], s)
  | some plan =>
    match core.simplifiedTransform with
    | none => Except.error Fatal.invalidAccess
    | some stage => Except.ok (runEnrollPipeline R stage plan s)

/-- The suffixes of galleries that hold enrolled records. -/
def enrolledSuffixes : List String := ["gal", "mem", "template"]

/-- The method `AlgorithmCore::retrieveOrEnroll`: the file the gallery is made for, its
files, and the session afterwards. -/
def AlgorithmCore.retrieveOrEnroll {T D W : Type} (R : Runtime T D W) (core : AlgorithmCore T D)
    (file : File) (s : Session W) : Except Fatal (File × FileList × Session W) :=
  if !R.getBool file "enroll" && enrolledSuffixes.contains (R.suffix file) then
    Except.ok (file, R.files s.world file, s)
  else
    let gallery := core.getMemoryGallery R file
    let galleryFiles := R.files s.world gallery
    if !galleryFiles.isEmpty then Except.ok (gallery, galleryFiles, s)
    else
      match core.enroll R file File.null s with
      | Except.error e => Except.error e
      | Except.ok (_, s1) => Except.ok (gallery, R.files s1.world gallery, s1)

/-- The orientation `compare` chooses from the two record counts: the flag
`transposeMode`, the row gallery and the column gallery. -/
def compareOrientation (targetGallery queryGallery : File) (targetSize querySize : Nat) :
    Bool × File × File :=
  let transposeMode := decide (targetSize > querySize)
  if transposeMode then (transposeMode, targetGallery, queryGallery)
  else (transposeMode, queryGallery, targetGallery)

/-- What `compare` does to the column gallery before the comparison. -/
inductive ColumnStep
  /-- The column gallery has suffix `mem`: nothing is done. -/
  | asIs
  /-- The column gallery is enrolled into the resident gallery. -/
  | enrolled
  /-- The column gallery is read and written to the resident gallery. -/
  | converted
deriving DecidableEq, Repr

/-- A stage of the list `enrollCompare`. -/
inductive RegionStage
  /-- The member `simplifiedTransform`. -/
  | enrollment
  /-- The member `comparison`. -/
  | comparison
deriving DecidableEq, Repr

/-- What `compare` has decided and assembled when it starts the stream. -/
structure ComparePlan where
  selfCompare : Bool
  multiProcess : Bool
  transposeMode : Bool
  needEnrollRows : Bool
  targetGallery : File
  queryGallery : File
  rowGallery : File
  colGallery : File
  colEnrolledGallery : File
  columnStep : ColumnStep
  rowSize : Int
  enrollCompare : List RegionStage
  outputRegionDesc : String
deriving DecidableEq, Repr

/-- How a call of `compare` ends. -/
inductive CompareOutcome
  /-- The distance took the galleries itself. -/
  | handledByDistance
  /-- The output exists and is flagged as cached. -/
  | cached
  /-- The stream ran: the plan, and the score vector of each streamed record. -/
  | ran (plan : ComparePlan) (rows : List (List Score))
deriving DecidableEq, Repr

/-- Modelled from the spec: the streamed comparison pipeline, built from `Stream`,
`ProcessWrapper`, `ProgressCounter` and `Discard` outside this file.  The row gallery is
read in order; each record goes through the enrollment stage when that is part of the
pipeline, then through the comparison stage, which was trained on the resident column
records and yields one score per column record. -/
def runComparePipeline {T D W : Type} (R : Runtime T D W) (stage : Option T) (comparison : T)
    (tlist : TemplateList) (rowGallery : File) (s : Session W) :
    List (List Score) × Session W :=
  let data := R.read s.world rowGallery
  match stage with
  | none => (data.map (R.compareRow comparison tlist), s)
  | some st =>
    (((data.map (R.project st)).flatten).map (R.compareRow comparison tlist),
     { s with stageInput := s.stageInput ++ data })

/-- Modelled from the spec: the `Output` stage, outside this file, writes the score vector
of the k-th streamed record as row k of the persisted matrix, and as column k when the
transpose flag is set.  This is the entry of the persisted matrix at a position. -/
def persistedScore (transposeMode : Bool) (rows : List (List Score)) (i j : Nat) :
    Option Score :=
  if transposeMode then rows[j]?.bind (fun r => r[i]?)
  else rows[i]?.bind (fun r => r[j]?)

/-- The entry of the score matrix that a call of `compare` has written, if it wrote one. -/
def CompareOutcome.scoreAt : CompareOutcome → Nat → Nat → Option Score
  | CompareOutcome.ran plan rows, i, j => persistedScore plan.transposeMode rows i j
  | _, _, _ => none

/-- The column part of `compare`: the resident gallery, what was done to get it, and the
session afterwards. -/
def AlgorithmCore.compareColumn {T D W : Type} (R : Runtime T D W) (core : AlgorithmCore T D)
    (colGallery : File) (s : Session W) : Except Fatal (File × ColumnStep × Session W) :=
  let targetExtension := "mem"
  if R.suffix colGallery ≠ targetExtension then
    let colEnrolledGallery :=
      R.toFile (R.baseName colGallery ++ R.hash colGallery ++ "." ++ targetExtension)
    if (["gal", "template", "mem"].contains (R.suffix colGallery)) = false then
      match core.enroll R colGallery colEnrolledGallery s with
      | Except.error e => Except.error e
      | Except.ok (_, s1) => Except.ok (colEnrolledGallery, ColumnStep.enrolled, s1)
    else
      let templates := R.read s.world colGallery
      Except.ok (colEnrolledGallery, ColumnStep.converted,
        { s with world := R.writeBlock s.world colEnrolledGallery templates,
                 writes := s.writes ++ [(colEnrolledGallery, templates)] })
  else Except.ok (colGallery, ColumnStep.asIs, s)

/-- The row part of `compare`: the row gallery to stream and the flag `needEnrollRows`. -/
def compareRowDecision {T D W : Type} (R : Runtime T D W) (selfCompare : Bool)
    (rowGallery colEnrolledGallery : File) : File × Bool :=
  if selfCompare then (colEnrolledGallery, false)
  else if (["gal", "mem", "template"].contains (R.suffix rowGallery)) = false then
    (rowGallery, true)
  else (rowGallery, false)

/-- The text of the output stage that `compare` makes. -/
def outputRegionDesc {T D W : Type} (R : Runtime T D W) (output targetGallery queryGallery : File)
    (transposeMode : Bool) : String :=
  let outputString := if R.flat output = "" then "Empty" else R.flat output
  "Output(" ++ outputString ++ "," ++ R.flat targetGallery ++ "," ++ R.flat queryGallery ++ "," ++
    (if transposeMode then "1" else "0") ++ ")"

/-- The comparison itself: the column part, the row part, the assembly of the pipeline and
the stream, for an orientation already chosen. -/
def AlgorithmCore.compareOriented {T D W : Type} (R : Runtime T D W) (core : AlgorithmCore T D)
    (selfCompare multiProcess transposeMode : Bool)
    (targetGallery queryGallery output rowGallery colGallery : File) (s : Session W) :
    Except Fatal (CompareOutcome × Session W) :=
  let rowSize := R.totalSize s.world rowGallery
  match core.compareColumn R colGallery s with
  | Except.error e => Except.error e
  | Except.ok (colEnrolledGallery, columnStep, s1) =>
    let row := compareRowDecision R selfCompare rowGallery colEnrolledGallery
    let rowGallery := row.1
    let needEnrollRows := row.2
    let tlist := R.read s1.world colEnrolledGallery
    match core.comparison with
    | none => Except.error Fatal.invalidAccess
    | some comparison =>
      let enrollCompare :=
        (if needEnrollRows then [RegionStage.enrollment] else []) ++ [RegionStage.comparison]
      let plan : ComparePlan :=
        { selfCompare := selfCompare, multiProcess := multiProcess,
          transposeMode := transposeMode, needEnrollRows := needEnrollRows,
          targetGallery := targetGallery, queryGallery := queryGallery,
          rowGallery := rowGallery, colGallery := colGallery,
          colEnrolledGallery := colEnrolledGallery, columnStep := columnStep,
          rowSize := rowSize, enrollCompare := enrollCompare,
          outputRegionDesc := outputRegionDesc R output targetGallery queryGallery transposeMode }
      let stage : Except Fatal (Option T) :=
        if needEnrollRows then
          match core.simplifiedTransform with
          | none => Except.error Fatal.invalidAccess
          | some st => Except.ok (some st)
        else Except.ok none
      match stage with
      | Except.error e => Except.error e
      | Except.ok stage =>
        let r := runComparePipeline R stage comparison tlist rowGallery s1
        Except.ok (CompareOutcome.ran plan r.1, r.2)

/-- The method `AlgorithmCore::compare`. -/
def AlgorithmCore.compare {T D W : Type} (R : Runtime T D W) (core : AlgorithmCore T D)
    (targetGallery queryGallery output : File) (s : Session W) :
    Except Fatal (CompareOutcome × Session W) :=
  let handled : Bool :=
    match core.distance with
    | none => false
    | some d => R.distanceCompareFiles d s.world targetGallery queryGallery output
  if handled then Except.ok (CompareOutcome.handledByDistance, s)
  else
    let selfCompare : Bool := decide (targetGallery = queryGallery)
    let multiProcess := R.getBool R.globalsFile "multiProcess"
    if R.fileExists s.world output && R.getBool output "cache" then
      Except.ok (CompareOutcome.cached, s)
    else
      let queryGallery := if queryGallery.name = "." then targetGallery else queryGallery
      let targetMetadata := R.files s.world targetGallery
      let queryMetadata := R.files s.world queryGallery
      let orientation :=
        compareOrientation targetGallery queryGallery targetMetadata.length queryMetadata.length
      core.compareOriented R selfCompare multiProcess orientation.1 targetGallery queryGallery
        output orientation.2.1 orientation.2.2 s

/-- The records `compare` holds resident for a column gallery: the resident gallery
`colEnrolledGallery`, read after the column step.  Empty when the column step ends the
run. -/
def AlgorithmCore.residentRecords {T D W : Type} (R : Runtime T D W) (core : AlgorithmCore T D)
    (colGallery : File) (s : Session W) : TemplateList :=
  match core.compareColumn R colGallery s with
  | Except.error _ => []
  | Except.ok (colEnrolledGallery, _, s1) => R.read s1.world colEnrolledGallery

/-- The records of a row gallery as they reach the comparison stage when `compare` streams
it against a column gallery: the row gallery that the row part decides on, read after the
column step, and put through the enrollment stage when that stage is in the pipeline.
Empty when the column step ends the run or the enrollment stage is missing. -/
def AlgorithmCore.streamedRecords {T D W : Type} (R : Runtime T D W) (core : AlgorithmCore T D)
    (rowGallery colGallery : File) (s : Session W) : TemplateList :=
  match core.compareColumn R colGallery s with
  | Except.error _ => []
  | Except.ok (colEnrolledGallery, _, s1) =>
    let row :=
      compareRowDecision R (decide (colGallery = rowGallery)) rowGallery colEnrolledGallery
    let data := R.read s1.world row.1
    if row.2 then
      match core.simplifiedTransform with
      | none => []
      | some stage => (data.map (R.project stage)).flatten
    else data

/-- A comparison stage that scores every pair of records on its own and symmetrically: the
score vector of an incoming record holds one score per resident record, and the score of
two records is the same whichever of them is the resident one. -/
def SymmetricScoring {T D W : Type} (R : Runtime T D W) (comparison : T) : Prop :=
  ∃ score : Template → Template → Score,
    (∀ a b : Template, score a b = score b a) ∧
    ∀ (tlist : TemplateList) (r : Template),
      R.compareRow comparison tlist r = tlist.map (fun c => score c r)

/-! ## Sample collaborators

Stages and distances that are nothing but their description, and a tokenizer that splits
at every separator.  They serve to run the definitions on concrete descriptors. -/

/-- Split a character list at every occurrence of a separator. -/
def splitChars (sep : Char) : List Char → List (List Char)
  | [] => [[]]
  | c :: cs =>
    match splitChars sep cs with
    | [] => [[c]]
    | w :: ws => if c = sep then [] :: w :: ws else (c :: w) :: ws

/-- A tokenizer: no token for the empty text, otherwise the pieces between separators. -/
def samplePlugins.parse (s : String) (sep : Char) : List String :=
  if s = "" then [] else (splitChars sep s.data).map String.mk

/-- Sample plugin layer: a stage or a distance is its description. -/
def samplePlugins : Plugins String String where
  makeTransform := fun s => if s = "" then none else some s
  makeDistance := fun s => some s
  setDistance := fun g d => g ++ "(" ++ d ++ ")"
  simplify := fun t => (t, false)
  serializeTransform := fun t => [Datum.string t]
  deserializeTransform := fun s =>
    match s with
    | Datum.string t :: rest => some (t, rest)
    | _ => none
  serializeDistance := fun d => [Datum.string d]
  loadDistance := fun d s => some (d, s)
  parse := samplePlugins.parse
  parsedSuffix := fun _ => ""
  applyAdditionalProperties := fun _ t => t

/-- Sample globals: one abbreviation. -/
def sampleGlobals : Globals where
  sdkPath := "/opt/openbr"
  abbreviations := [("FaceRecognition", "FaceDetect:L2")]

/-- The text after the last dot of a name, empty when there is no dot. -/
def sampleSuffix (name : String) : String :=
  if name.data.contains '.' then
    String.mk (name.data.reverse.takeWhile (fun c => c ≠ '.')).reverse
  else ""

/-- The text before the first dot of a name. -/
def sampleBaseName (name : String) : String :=
  String.mk (name.data.takeWhile (fun c => c ≠ '.'))

/-- A gallery store: the records held under each file, the latest block first. -/
abbrev SampleWorld := List (File × TemplateList)

/-- Sample runtime: files are their names, a written block replaces what a gallery held,
the enrollment stage puts a 7 in front of the payload, and the comparison stage scores a
resident record `c` against an incoming record `r` as ten times the first payload entry of
`c` plus the first payload entry of `r`. -/
def sampleRuntime : Runtime String String SampleWorld where
  toFile := fun s => { name := s, metadata := [] }
  flat := fun f => f.name
  suffix := fun f => sampleSuffix f.name
  baseName := fun f => sampleBaseName f.name
  hash := fun f => String.mk (f.name.data.filter (fun c => c ≠ '.'))
  getBool := fun f key => f.metadata.lookup key == some "true"
  containsKey := fun f key => (f.metadata.lookup key).isSome
  globalsFile := File.null
  fileExists := fun w f => (w.lookup f).isSome
  files := fun w f => TemplateList.files ((w.lookup f).getD [])
  read := fun w f => (w.lookup f).getD []
  writeBlock := fun w f block => (f, block) :: w
  totalSize := fun w f => (((w.lookup f).getD []).length : Int)
  project := fun _ t => [{ file := t.file, m := 7 :: t.m }]
  compareRow := fun _ tlist r => tlist.map (fun c => c.m.headD 0 * 10 + r.m.headD 0)
  distanceCompareFiles := fun _ _ _ _ _ => false

/-- A sample distance-based verifier, as construction yields it for `FaceDetect:L2`. -/
def sampleVerifier : AlgorithmCore String String :=
  { transform := some "FaceDetect", simplifiedTransform := some "FaceDetect",
    comparison := some "GalleryCompare(L2)", distance := some "L2",
    progressCounter := some "ProgressCounter", name := "FaceDetect:L2" }

/-- A file by its name alone. -/
def fileNamed (name : String) : File := { name := name, metadata := [] }

/-- A sample store: two enrolled galleries of one record each, a raw list of two records,
and an enrolled gallery of two records. -/
def sampleWorld : SampleWorld :=
  [(fileNamed "A.mem", [{ file := fileNamed "a.jpg", m := [1] }]),
   (fileNamed "B.mem", [{ file := fileNamed "b.jpg", m := [2] }]),
   (fileNamed "C.csv", [{ file := fileNamed "c1.jpg", m := [] },
                        { file := fileNamed "c2.jpg", m := [] }]),
   (fileNamed "P.mem", [{ file := fileNamed "p1.jpg", m := [3] },
                        { file := fileNamed "p2.jpg", m := [4] }])]

/-- A session that starts on the sample store with empty logs. -/
def sampleSession : Session SampleWorld :=
  { world := sampleWorld, stageInput := [], writes := [] }

/-- The sample runtime with a symmetric score: the sum of the first payload entries of the
two records. -/
def symmetricRuntime : Runtime String String SampleWorld :=
  { sampleRuntime with
    compareRow := fun _ tlist r => tlist.map (fun c => c.m.headD 0 + r.m.headD 0) }

/-! ## Pairwise comparison -/

/-- What `pairwiseCompare` and `deduplicate` call on a distance. -/
structure Scoring (D : Type) where
  /-- The call `distance->compare(a, b)` on two records. -/
  compare : D → Template → Template → Score
  /-- The text of `Globals->buffer` after `distance->compare(t, t, o)`, where `o` is the
  self-similar tail output made for the input files and the threshold. -/
  selfSimilarTail : D → TemplateList → FileList → Score → String

/-- A call `setRelative(value, row, column)` on an output. -/
structure ScoreWrite where
  value : Score
  row : Nat
  column : Nat
deriving DecidableEq, Repr

/-- What a call of `pairwiseCompare` has done when it ends: the fatal condition that ended
it, if one did; the session; the output as made, with its target files and query files;
and the scores written to it, in order. -/
structure PairwiseRun (W : Type) where
  fatal : Option Fatal
  session : Session W
  output : Option (File × FileList × FileList)
  scores : List ScoreWrite

/-- The loop of `pairwiseCompare` from index `i` on, over the queries still to come: the
fatal condition that ended it, if one did, and the scores written. -/
def pairwiseLoop (compare : Template → Template → Score) (targets : TemplateList) :
    Nat → TemplateList → List ScoreWrite → Option Fatal × List ScoreWrite
  | _, [], written => (none, written)
  | i, q :: queries, written =>
    match targets[i]? with
    | none => (some Fatal.invalidAccess, written)
    | some t =>
      pairwiseLoop compare targets (i + 1) queries
        (written ++ [{ value := compare q t, row := 0, column := i }])

/-- The two calls of `retrieveOrEnroll` in `pairwiseCompare`: the files the target and the
query gallery are made for, the query files, and the session afterwards. -/
def AlgorithmCore.pairwiseGalleries {T D W : Type} (R : Runtime T D W)
    (core : AlgorithmCore T D) (targetGallery queryGallery : File) (s : Session W) :
    Except Fatal (File × File × FileList × Session W) :=
  let queryGallery := if queryGallery.name = "." then targetGallery else queryGallery
  match core.retrieveOrEnroll R targetGallery s with
  | Except.error e => Except.error e
  | Except.ok (t, _, s1) =>
    match core.retrieveOrEnroll R queryGallery s1 with
    | Except.error e => Except.error e
    | Except.ok (q, queryFiles, s2) => Except.ok (t, q, queryFiles, s2)

/-- The method `AlgorithmCore::pairwiseCompare`. -/
def AlgorithmCore.pairwiseCompare {T D W : Type} (R : Runtime T D W) (S : Scoring D)
    (core : AlgorithmCore T D) (targetGallery queryGallery output : File) (s : Session W) :
    PairwiseRun W :=
  match core.distance with
  | none => { fatal := some Fatal.nullDistance, session := s, output := none, scores := [] }
  | some distance =>
    match core.pairwiseGalleries R targetGallery queryGallery s with
    | Except.error e => { fatal := some e, session := s, output := none, scores := [] }
    | Except.ok (t, q, queryFiles, s2) =>
      if (R.files s2.world t).length ≠ (R.files s2.world q).length then
        { fatal := some Fatal.dimensionMismatch, session := s2, output := none, scores := [] }
      else
        let queries := R.read s2.world q
        let targets := R.read s2.world t
        match targets[0]? with
        | none => { fatal := some Fatal.invalidAccess, session := s2, output := none, scores := [] }
        | some first =>
          let dummyTarget : FileList := [first.file]
          let r := pairwiseLoop (S.compare distance) targets 0 queries []
          { fatal := r.1, session := s2, output := some (output, dummyTarget, queryFiles),
            scores := r.2 }

/-- Sample scoring: the score of `a` against `b` is ten times the first payload entry of
`a` plus the first payload entry of `b`; the tail buffer is not used. -/
def sampleScoring : Scoring String where
  compare := fun _ a b => a.m.headD 0 * 10 + b.m.headD 0
  selfSimilarTail := fun _ _ _ _ => ""

/-- A sample store for pairwise comparison: enrolled galleries of three, four and three
records, and none under any other name. -/
def pairwiseWorld : SampleWorld :=
  [(fileNamed "T3.mem", [{ file := fileNamed "t0.jpg", m := [1] },
                         { file := fileNamed "t1.jpg", m := [2] },
                         { file := fileNamed "t2.jpg", m := [3] }]),
   (fileNamed "Q4.mem", [{ file := fileNamed "q0.jpg", m := [4] },
                         { file := fileNamed "q1.jpg", m := [5] },
                         { file := fileNamed "q2.jpg", m := [6] },
                         { file := fileNamed "q3.jpg", m := [7] }]),
   (fileNamed "Q3.mem", [{ file := fileNamed "q0.jpg", m := [4] },
                         { file := fileNamed "q1.jpg", m := [5] },
                         { file := fileNamed "q2.jpg", m := [6] }])]

/-- A session that starts on the pairwise sample store with empty logs. -/
def pairwiseSession : Session SampleWorld :=
  { world := pairwiseWorld, stageInput := [], writes := [] }

/-! ## Deduplication -/

/-- The method `QString::split(separator)`, which keeps empty parts: the pieces between the
occurrences of the separator, one piece for a text without any. -/
def qSplit (separator : Char) (text : String) : List String :=
  (splitChars separator text.data).map String.mk

/-- The loop `foreach (s, tail) toRemove.append(s.split(',').at(1))` of `deduplicate`.
The method `QList::at` is given a valid index or the run ends. -/
def secondFields : List String → Except Fatal (List String)
  | [] => Except.ok []
  | s :: rest =>
    match (qSplit ',' s)[1]? with
    | none => Except.error Fatal.invalidAccess
    | some name =>
      match secondFields rest with
      | Except.error e => Except.error e
      | Except.ok names => Except.ok (name :: names)

/-- The parse step of `deduplicate`: the buffer is split into lines, the first line is
removed, and the second field of every other line is collected in `toRemove`. -/
def parseTail (buffer : String) : Except Fatal (List String) :=
  match qSplit '\n' buffer with
  | [] => Except.error Fatal.invalidAccess
  | _ :: tail => secondFields tail

/-- The method `QStringList::indexOf`: the first position of a name, and -1 for a name
that does not occur. -/
def qIndexOf (fileNames : List String) (d : String) : Int :=
  if fileNames.indexOf d < fileNames.length then (fileNames.indexOf d : Int) else -1

/-- The number of low bits that are dropped when a number is brought to 24 significant
bits: the number of halvings that bring it below 2^24.  The first argument bounds the
recursion; the number itself is enough. -/
def droppedBits : Nat → Nat → Nat
  | 0, _ => 0
  | bound + 1, n => if n < 16777216 then 0 else droppedBits bound (n / 2) + 1

/-- The value of a natural number converted to `float`, as the integer it is: numbers up
to 2^24 are kept, larger ones are rounded to 24 significant bits, to the nearest and on a
tie to the even one. -/
def floatOfNat (n : Nat) : Nat :=
  if n ≤ 16777216 then n
  else
    let e := droppedBits n n
    let q := n / 2 ^ e
    let r := n % 2 ^ e
    let half := 2 ^ (e - 1)
    if r > half ∨ (r = half ∧ q % 2 = 1) then (q + 1) * 2 ^ e else q * 2 ^ e

/-- The value of an `int` converted to `float`. -/
def floatOfInt (i : Int) : Int :=
  if i < 0 then -((floatOfNat i.natAbs : Nat) : Int) else ((floatOfNat i.toNat : Nat) : Int)

/-- The comparator `std::greater<float>()` at work on two `int` indices: both are
converted to `float` first. -/
def greaterFloat (a b : Int) : Bool :=
  decide (floatOfInt a > floatOfInt b)

/-- The contract of `std::sort(first, last, comp)`: the result is a rearrangement of the
input in which no element comes after one that `comp` puts behind it.  The order of
elements that `comp` does not tell apart is left open. -/
def StdSort (sort : List Int → List Int) (comp : Int → Int → Bool) : Prop :=
  ∀ l : List Int, (sort l).Perm l ∧ (sort l).Pairwise (fun a b => comp b a = false)

/-- The method `QList::removeAt`: the element at a valid index is taken out, and the list
is left as it is for an index out of range (such as the -1 of a name that was not found). -/
def qRemoveAt (l : FileList) (i : Int) : FileList :=
  if 0 ≤ i ∧ i < (l.length : Int) then l.eraseIdx i.toNat else l

/-- The loop `for (i < indices.size()) inputFiles.removeAt(indices[i])` of `deduplicate`.
No removal ends the run. -/
def removeEach : List Int → FileList → Except Fatal FileList
  | [], inputFiles => Except.ok inputFiles
  | i :: indices, inputFiles => removeEach indices (qRemoveAt inputFiles i)

/-- The removal step of `deduplicate`: the names in `duplicates`, in the order in which
the set hands them out, are mapped to their indices in the input files, the indices are
sorted with `std::sort` and `std::greater<float>`, and removed one at a time. -/
def removeDuplicates (sort : List Int → List Int) (inputFiles : FileList)
    (duplicates : List String) : Except Fatal FileList :=
  let fileNames := inputFiles.map (fun f => f.name)
  let indices := duplicates.map (qIndexOf fileNames)
  removeEach (sort indices) inputFiles

/-- The method `AlgorithmCore::deduplicate`.  `sort` is `std::sort` with the comparator
`std::greater<float>`, and `setOrder` gives the elements of `QSet<QString>::fromList(l)`
in the order in which the set hands them out. -/
def AlgorithmCore.deduplicate {T D W : Type} (R : Runtime T D W) (S : Scoring D)
    (sort : List Int → List Int) (setOrder : List String → List String)
    (core : AlgorithmCore T D) (inputGallery outputGallery : File) (threshold : Score)
    (s : Session W) : Except Fatal (Session W) :=
  match core.distance with
  | none => Except.error Fatal.nullDistance
  | some distance =>
    match core.retrieveOrEnroll R inputGallery s with
    | Except.error e => Except.error e
    | Except.ok (i, inputFiles, s1) =>
      let t := R.read s1.world i
      let buffer := S.selfSimilarTail distance t inputFiles threshold
      match parseTail buffer with
      | Except.error e => Except.error e
      | Except.ok toRemove =>
        let duplicates := setOrder toRemove
        match removeDuplicates sort inputFiles duplicates with
        | Except.error e => Except.error e
        | Except.ok remaining =>
          let block : TemplateList := remaining.map (fun f => { file := f, m := [] })
          Except.ok { s1 with world := R.writeBlock s1.world outputGallery block,
                              writes := s1.writes ++ [(outputGallery, block)] }

/-- A sample `std::sort` for the comparator `std::greater<float>`: insertion sort. -/
def sampleSort (l : List Int) : List Int :=
  l.insertionSort (fun a b => floatOfInt b ≤ floatOfInt a)

/-- A sample of five files. -/
def fiveFiles : FileList :=
  [fileNamed "r0.jpg", fileNamed "r1.jpg", fileNamed "r2.jpg", fileNamed "r3.jpg",
   fileNamed "r4.jpg"]

/-- A name for every number: as many letters `r` as the number says. -/
def numberedName (k : Nat) : String :=
  String.mk (List.replicate k 'r')

/-- The list of `n` files, the file at index `k` being named by `k`. -/
def numberedFiles (n : Nat) : FileList :=
  (List.range n).map (fun k => fileNamed (numberedName k))

/-- The lines joined by a separator, with none after the last line. -/
def joinWith (separator : Char) : List (List Char) → List Char
  | [] => []
  | [l] => l
  | l :: l' :: rest => l ++ separator :: joinWith separator (l' :: rest)

/-- The text whose lines are the given ones: joined by newlines, with no newline at the
end. -/
def joinLines (lines : List String) : String :=
  String.mk (joinWith '\n' (lines.map String.data))

/-! ## Conversion -/

/-- The ways `br::Convert` can end without a result. -/
inductive ConvertFatal
  /-- The text `Similarity matrix (rows, cols) and header (queries, targets) size
  mismatch.` -/
  | sizeMismatch (rows cols queryFiles targetFiles : Nat)
  /-- The text `Unrecognized file type` followed by the flat file type. -/
  | unrecognizedFileType (fileType : String)
deriving DecidableEq, Repr

/-- A similarity matrix `cv::Mat`: its dimensions and its entries. -/
structure Mat where
  rows : Nat
  cols : Nat
  entry : Nat → Nat → Score

/-- What `br::Convert` calls outside this file. -/
structure ConvertEnv where
  /-- The method `File::flat`. -/
  flat : File → String
  /-- The call `BEE::readMatrix(inputFile, &target, &query)`: the matrix and the two
  gallery names of its header. -/
  readMatrix : File → Mat × String × String
  /-- The files `TemplateList::fromGallery(name).files()`. -/
  galleryFiles : String → FileList
  /-- Whether the output made for a file is a `MatrixOutput`. -/
  isMatrixOutput : File → Bool

/-- What a call of `br::Convert` that returns has done. -/
inductive ConvertOutcome
  /-- A format was read and written. -/
  | format
  /-- A gallery was read and written block by block. -/
  | gallery
  /-- An output was made: the files it was given, the dimensions of the matrix created
  anew when that was done, and the scores written, in order. -/
  | output (targetFiles queryFiles : FileList) (created : Option (Nat × Nat))
      (writes : List ScoreWrite)
deriving DecidableEq, Repr

/-- The two nested loops of `br::Convert` over the matrix. -/
def convertWrites (m : Mat) : List ScoreWrite :=
  ((List.range m.rows).map (fun i =>
    (List.range m.cols).map (fun j => { value := m.entry i j, row := i, column := j }))).flatten

/-- The function `br::Convert`. -/
def Convert (E : ConvertEnv) (fileType inputFile outputFile : File) :
    Except ConvertFatal ConvertOutcome :=
  if fileType.name = "Format" then Except.ok ConvertOutcome.format
  else if fileType.name = "Gallery" then Except.ok ConvertOutcome.gallery
  else if fileType.name = "Output" then
    let m := (E.readMatrix inputFile).1
    let target := (E.readMatrix inputFile).2.1
    let query := (E.readMatrix inputFile).2.2
    let targetFiles := E.galleryFiles target
    let queryFiles := E.galleryFiles query
    if (targetFiles.length ≠ m.cols ∨ queryFiles.length ≠ m.rows)
        ∧ (m.cols ≠ 1 ∨ targetFiles.length ≠ m.rows ∨ queryFiles.length ≠ m.rows) then
      Except.error
        (ConvertFatal.sizeMismatch m.rows m.cols queryFiles.length targetFiles.length)
    else
      let created : Option (Nat × Nat) :=
        if targetFiles.length ≠ m.cols then
          if E.isMatrixOutput outputFile then some (queryFiles.length, 1) else none
        else none
      Except.ok (ConvertOutcome.output targetFiles queryFiles created (convertWrites m))
  else Except.error (ConvertFatal.unrecognizedFileType (E.flat fileType))

/-- A sample similarity matrix of two rows and three columns. -/
def sampleMat : Mat :=
  { rows := 2, cols := 3, entry := fun i j => (10 * i + j : Nat) }

/-- A sample environment for `br::Convert`: the matrix of every input file is the sample
matrix, with a header that names a target gallery of three files and a query gallery of
two files. -/
def sampleConvertEnv : ConvertEnv where
  flat := fun f => f.name
  readMatrix := fun _ => (sampleMat, "targets.csv", "queries.csv")
  galleryFiles := fun name =>
    if name = "targets.csv" then [fileNamed "t0.jpg", fileNamed "t1.jpg", fileNamed "t2.jpg"]
    else if name = "queries.csv" then [fileNamed "q0.jpg", fileNamed "q1.jpg"]
    else []
  isMatrixOutput := fun _ => true

/-- The stage serialisers round-trip: what `serialize` wrote, `deserialize` reads back,
leaving the rest of the stream. -/
def TransformRoundTrip {T D : Type} (P : Plugins T D) : Prop :=
  ∀ (t : T) (rest : DataStream),
    P.deserializeTransform (P.serializeTransform t ++ rest) = some (t, rest)

/-- The distance serialisers round-trip: the description and state that `serialize` wrote
give the distance back through `Distance::make` and `load`, leaving the rest of the stream. -/
def DistanceRoundTrip {T D : Type} (P : Plugins T D) : Prop :=
  ∀ (d : D) (rest : DataStream),
    loadDistanceFrom P (P.serializeDistance d ++ rest) = some (d, rest)

/-- The invariant behind `isClassifier`: a core with a distance has a comparison stage. -/
def AlgorithmCore.DistanceHasComparison {T D : Type} (c : AlgorithmCore T D) : Prop :=
  c.distance.isSome = true → c.comparison.isSome = true

/-! ## Theorems -/

/-! ### Descriptor parsing and the classifier invariant -/

theorem simplifyTransform_fields {T D : Type} (P : Plugins T D) (c c1 : AlgorithmCore T D)
    (h : AlgorithmCore.simplifyTransform P c = Except.ok c1) :
    c1.comparison = c.comparison ∧ c1.distance = c.distance ∧ c1.transform = c.transform := by
  unfold AlgorithmCore.simplifyTransform at h
  split at h
  · cases h
  · cases h
    exact ⟨rfl, rfl, rfl⟩

theorem load_distanceHasComparison {T D : Type} (P : Plugins T D) (fs : FileSystem)
    (model : String) (c c1 : AlgorithmCore T D)
    (hc : c.DistanceHasComparison)
    (h : AlgorithmCore.load P fs model c = Except.ok c1) : c1.DistanceHasComparison := by
  unfold AlgorithmCore.load at h
  unfold AlgorithmCore.DistanceHasComparison at *
  split at h
  · cases h
  · split at h
    · cases h
    · simp only at h
      split at h
      · cases h
      · rename_i c2 in3 hc2
        split at hc2
        · split at hc2
          · cases hc2
          · split at hc2
            · cases hc2
            · cases hc2
              split at h
              · split at h
                · cases h
                · cases h
                  simp
              · cases h
                simp
        · cases hc2
          split at h
          · split at h
            · cases h
            · cases h
              simp
          · cases h
            simpa using hc

theorem initWords_distanceHasComparison {T D : Type} (P : Plugins T D) (compareTransform : Bool)
    (words : List String) (c c1 : AlgorithmCore T D) (hc : c.DistanceHasComparison)
    (h : AlgorithmCore.initWords P compareTransform words c = Except.ok c1) :
    c1.DistanceHasComparison := by
  unfold AlgorithmCore.initWords AlgorithmCore.simplifyTransform at h
  unfold AlgorithmCore.DistanceHasComparison at *
  repeat' split at h
  all_goals cases h
  all_goals (try (simp_all; done))
  all_goals (rename_i heq; simp at heq; subst heq; simpa using hc)

theorem loadOrExpand_distanceHasComparison {T D : Type} (P : Plugins T D) (G : Globals)
    (fs : FileSystem)
    (initRec : String → AlgorithmCore T D → Except Fatal (AlgorithmCore T D))
    (hrec : ∀ (d : String) (c c1 : AlgorithmCore T D), c.DistanceHasComparison →
      initRec d c = Except.ok c1 → c1.DistanceHasComparison)
    (description : String) (c c1 : AlgorithmCore T D) (b : Bool)
    (hc : c.DistanceHasComparison)
    (h : AlgorithmCore.loadOrExpand P G fs initRec description c = Except.ok (b, c1)) :
    c1.DistanceHasComparison := by
  unfold AlgorithmCore.loadOrExpand at h
  simp only at h
  repeat' split at h
  all_goals cases h
  all_goals first
    | exact hc
    | exact load_distanceHasComparison P fs _ c _ hc (by assumption)
    | exact hrec _ c _ hc (by assumption)

theorem init_distanceHasComparison {T D : Type} (P : Plugins T D) (G : Globals)
    (fs : FileSystem) (depth : Nat) :
    ∀ (description : String) (c c1 : AlgorithmCore T D), c.DistanceHasComparison →
      AlgorithmCore.init P G fs depth description c = Except.ok c1 →
      c1.DistanceHasComparison := by
  induction depth with
  | zero =>
    intro description c c1 _ h
    simp [AlgorithmCore.init] at h
  | succ depth ih =>
    intro description c c1 hc h
    unfold AlgorithmCore.init at h
    split at h
    · cases h
    · rename_i c2 h1
      have h2 := loadOrExpand_distanceHasComparison P G fs _ ih description c c2 true hc h1
      obtain ⟨e1, e2, -⟩ := simplifyTransform_fields P _ _ h
      unfold AlgorithmCore.DistanceHasComparison at *
      rw [e1, e2]
      exact h2
    · rename_i c2 h1
      have h2 := loadOrExpand_distanceHasComparison P G fs _ ih description c c2 false hc h1
      split at h
      · cases h
      · rename_i c3 h3
        have h4 := loadOrExpand_distanceHasComparison P G fs _ ih _ c2 c3 true h2 h3
        split at h
        · cases h
        · obtain ⟨e1, e2, -⟩ := simplifyTransform_fields P _ _ h
          unfold AlgorithmCore.DistanceHasComparison at *
          rw [e1, e2]
          exact h4
      · rename_i c3 h3
        have h4 := loadOrExpand_distanceHasComparison P G fs _ ih _ c2 c3 false h2 h3
        exact initWords_distanceHasComparison P _ _ c3 c1 h4 h

theorem isClassifier_iff_of_distanceHasComparison {T D : Type} (c : AlgorithmCore T D)
    (h : c.DistanceHasComparison) :
    c.isClassifier = true ↔ (c.comparison = none ∧ c.distance = none) := by
  unfold AlgorithmCore.DistanceHasComparison at h
  unfold AlgorithmCore.isClassifier
  constructor
  · intro hn
    have hcmp : c.comparison = none := by simpa using hn
    refine ⟨hcmp, ?_⟩
    cases hd : c.distance with
    | none => rfl
    | some d =>
      rw [hd, hcmp] at h
      simp at h
  · rintro ⟨hcmp, -⟩
    simp [hcmp]

/-- C1: every core that construction from a descriptor produces (whichever of the ways
`init` resolves the descriptor: model file, abbreviation, suffix, fresh parse), and every
core that `load` fills starting from a fresh one, has `isClassifier()` true exactly when
its comparison stage and its distance are both unset. -/
theorem isClassifier_iff_comparison_and_distance_unset {T D : Type} (P : Plugins T D)
    (G : Globals) (fs : FileSystem) (depth : Nat) (name model : String)
    (c : AlgorithmCore T D)
    (h : AlgorithmCore.new P G fs depth name = Except.ok c ∨
      AlgorithmCore.load P fs model { AlgorithmCore.fresh T D with name := name } = Except.ok c) :
    c.isClassifier = true ↔ (c.comparison = none ∧ c.distance = none) := by
  apply isClassifier_iff_of_distanceHasComparison
  have hfresh : ({ AlgorithmCore.fresh T D with name := name } :
      AlgorithmCore T D).DistanceHasComparison := by
    intro hd
    simp [AlgorithmCore.fresh] at hd
  rcases h with h | h
  · unfold AlgorithmCore.new at h
    split at h
    · cases h
    · rename_i c0 hinit
      have h0 := init_distanceHasComparison P G fs depth name _ c0 hfresh hinit
      split at h
      · cases h
      · cases h
        exact h0
  · exact load_distanceHasComparison P fs model _ c hfresh h

theorem isClassifier_iff_comparison_and_distance_unset_witness :
    (AlgorithmCore.new samplePlugins sampleGlobals [] 3 "FaceRecognition" =
      Except.ok
        { transform := some "FaceDetect", simplifiedTransform := some "FaceDetect",
          comparison := some "GalleryCompare(L2)", distance := some "L2",
          progressCounter := some "ProgressCounter", name := "FaceRecognition" }) ∧
    ((AlgorithmCore.isClassifier
        ({ transform := some "FaceDetect", simplifiedTransform := some "FaceDetect",
           comparison := some "GalleryCompare(L2)", distance := some "L2",
           progressCounter := some "ProgressCounter", name := "FaceRecognition" } :
          AlgorithmCore String String) = true) ↔
      ((some "GalleryCompare(L2)" : Option String) = none ∧ (some "L2" : Option String) = none)) :=
  ⟨rfl,
   isClassifier_iff_comparison_and_distance_unset samplePlugins sampleGlobals [] 3
     "FaceRecognition" "" _ (Or.inl rfl)⟩

theorem initParse_eq_initWords {T D : Type} (P : Plugins T D) (description : String)
    (c : AlgorithmCore T D) :
    AlgorithmCore.initParse P description c =
      AlgorithmCore.initWords P (description.data.contains '!')
        (P.parse description (separatorOf description)) c := rfl

theorem initWords_one {T D : Type} (P : Plugins T D) (b : Bool) (w : String) (t : T)
    (c : AlgorithmCore T D) (ht : P.makeTransform w = some t) :
    AlgorithmCore.initWords P b [w] c =
      Except.ok { c with transform := some t, simplifiedTransform := some (P.simplify t).1 } := by
  simp [AlgorithmCore.initWords, AlgorithmCore.simplifyTransform, ht]

theorem initWords_two_distance {T D : Type} (P : Plugins T D) (w0 w1 : String) (t g : T)
    (d : D) (c : AlgorithmCore T D) (ht : P.makeTransform w0 = some t)
    (hd : P.makeDistance w1 = some d) (hg : P.makeTransform "GalleryCompare" = some g) :
    AlgorithmCore.initWords P false [w0, w1] c =
      Except.ok { c with transform := some t, simplifiedTransform := some (P.simplify t).1,
                         distance := some d, comparison := some (P.setDistance g d) } := by
  simp [AlgorithmCore.initWords, AlgorithmCore.simplifyTransform, ht, hd, hg]

theorem initWords_two_transform {T D : Type} (P : Plugins T D) (w0 w1 : String) (t cmp : T)
    (c : AlgorithmCore T D) (ht : P.makeTransform w0 = some t)
    (hc : P.makeTransform w1 = some cmp) :
    AlgorithmCore.initWords P true [w0, w1] c =
      Except.ok { c with transform := some t, simplifiedTransform := some (P.simplify t).1,
                         comparison := some cmp } := by
  simp [AlgorithmCore.initWords, AlgorithmCore.simplifyTransform, ht, hc]

/-- C2: a descriptor parsed as a fresh specification.  One token: a classifier, mode tag
`None`.  No `!` and two tokens from the split on `:`: not a classifier, mode tag
`DistanceCompare`, the distance made from the second token and the comparison stage
`GalleryCompare` configured with it.  With a `!`: the tokens are those of the split on `!`
(the split on `:` is never taken), and two of them give mode tag `TransformCompare`, the
comparison made from the second token and no distance. -/
theorem initParse_modes {T D : Type} (P : Plugins T D) (description name : String) :
    (∀ (w : String) (t : T),
      P.parse description (separatorOf description) = [w] → P.makeTransform w = some t →
      ∃ c, AlgorithmCore.initParse P description { AlgorithmCore.fresh T D with name := name }
          = Except.ok c ∧
        c.isClassifier = true ∧ c.storedMode = CompareMode.None ∧
        c.transform = some t ∧ c.comparison = none ∧ c.distance = none) ∧
    (∀ (w0 w1 : String) (t g : T) (d : D),
      description.data.contains '!' = false → P.parse description ':' = [w0, w1] →
      P.makeTransform w0 = some t → P.makeDistance w1 = some d →
      P.makeTransform "GalleryCompare" = some g →
      ∃ c, AlgorithmCore.initParse P description { AlgorithmCore.fresh T D with name := name }
          = Except.ok c ∧
        c.isClassifier = false ∧ c.storedMode = CompareMode.DistanceCompare ∧
        c.transform = some t ∧ c.distance = some d ∧
        c.comparison = some (P.setDistance g d)) ∧
    (description.data.contains '!' = true →
      separatorOf description = '!' ∧
      (∀ c0 : AlgorithmCore T D, AlgorithmCore.initParse P description c0 =
        AlgorithmCore.initWords P true (P.parse description '!') c0) ∧
      ∀ (w0 w1 : String) (t cmp : T),
        P.parse description '!' = [w0, w1] →
        P.makeTransform w0 = some t → P.makeTransform w1 = some cmp →
        ∃ c, AlgorithmCore.initParse P description { AlgorithmCore.fresh T D with name := name }
            = Except.ok c ∧
          c.isClassifier = false ∧ c.storedMode = CompareMode.TransformCompare ∧
          c.transform = some t ∧ c.comparison = some cmp ∧ c.distance = none) := by
  refine ⟨?_, ?_, ?_⟩
  · intro w t hw ht
    rw [initParse_eq_initWords, hw, initWords_one P _ w t _ ht]
    exact ⟨_, rfl, rfl, rfl, rfl, rfl, rfl⟩
  · intro w0 w1 t g d hx hw ht hd hg
    have hsep : separatorOf description = ':' := by
      unfold separatorOf
      rw [hx]
      rfl
    rw [initParse_eq_initWords, hsep, hx, hw, initWords_two_distance P w0 w1 t g d _ ht hd hg]
    exact ⟨_, rfl, rfl, rfl, rfl, rfl, rfl⟩
  · intro hx
    have hsep : separatorOf description = '!' := by
      unfold separatorOf
      rw [hx]
      rfl
    refine ⟨hsep, ?_, ?_⟩
    · intro c0
      rw [initParse_eq_initWords, hsep, hx]
    · intro w0 w1 t cmp hw ht hcmp
      rw [initParse_eq_initWords, hsep, hx, hw, initWords_two_transform P w0 w1 t cmp _ ht hcmp]
      exact ⟨_, rfl, rfl, rfl, rfl, rfl, rfl⟩

/-- The three descriptors of the scenario, run through the sample plugin layer. -/
theorem initParse_modes_witness :
    (∃ c, AlgorithmCore.initParse samplePlugins "FaceDetect"
          { AlgorithmCore.fresh String String with name := "FaceDetect" } = Except.ok c ∧
        c.isClassifier = true ∧ c.storedMode = CompareMode.None ∧
        c.transform = some "FaceDetect" ∧ c.comparison = none ∧ c.distance = none) ∧
    (∃ c, AlgorithmCore.initParse samplePlugins "FaceDetect:L2"
          { AlgorithmCore.fresh String String with name := "FaceDetect" } = Except.ok c ∧
        c.isClassifier = false ∧ c.storedMode = CompareMode.DistanceCompare ∧
        c.transform = some "FaceDetect" ∧ c.distance = some "L2" ∧
        c.comparison = some (samplePlugins.setDistance "GalleryCompare" "L2")) ∧
    (∃ c, AlgorithmCore.initParse samplePlugins "FaceDetect!Custom:Compare"
          { AlgorithmCore.fresh String String with name := "FaceDetect" } = Except.ok c ∧
        c.isClassifier = false ∧ c.storedMode = CompareMode.TransformCompare ∧
        c.transform = some "FaceDetect" ∧ c.comparison = some "Custom:Compare" ∧
        c.distance = none) :=
  ⟨(initParse_modes samplePlugins "FaceDetect" "FaceDetect").1
      "FaceDetect" "FaceDetect" rfl rfl,
   (initParse_modes samplePlugins "FaceDetect:L2" "FaceDetect").2.1
      "FaceDetect" "L2" "FaceDetect" "GalleryCompare" "L2" rfl rfl rfl rfl rfl,
   ((initParse_modes samplePlugins "FaceDetect!Custom:Compare" "FaceDetect").2.2 rfl).2.2
      "FaceDetect" "Custom:Compare" "FaceDetect" "Custom:Compare" rfl rfl rfl⟩

/-- C3: a descriptor parsed as a fresh specification ends with the fatal error
`Invalid algorithm format.` exactly when the split on its separator (`!` when it occurs,
`:` otherwise) gives no token or more than two; with one or two tokens the parse step
passes and only a stage or distance factory can still end the construction. -/
theorem initParse_invalid_format_iff {T D : Type} (P : Plugins T D) (description : String)
    (c : AlgorithmCore T D) :
    (AlgorithmCore.initParse P description c = Except.error Fatal.invalidAlgorithmFormat ↔
      ((P.parse description (separatorOf description)).length < 1 ∨
        2 < (P.parse description (separatorOf description)).length)) ∧
    (((P.parse description (separatorOf description)).length = 1 ∨
        (P.parse description (separatorOf description)).length = 2) →
      (∃ c1, AlgorithmCore.initParse P description c = Except.ok c1) ∨
        AlgorithmCore.initParse P description c = Except.error Fatal.factory) := by
  have key : ∀ (b : Bool) (words : List String),
      (AlgorithmCore.initWords P b words c = Except.error Fatal.invalidAlgorithmFormat ↔
        (words.length < 1 ∨ 2 < words.length)) ∧
      ((words.length = 1 ∨ words.length = 2) →
        (∃ c1, AlgorithmCore.initWords P b words c = Except.ok c1) ∨
          AlgorithmCore.initWords P b words c = Except.error Fatal.factory) := by
    intro b words
    unfold AlgorithmCore.initWords
    simp only [AlgorithmCore.simplifyTransform]
    by_cases hlen : words.length < 1 ∨ words.length > 2
    · rw [if_pos hlen]
      refine ⟨by simpa using hlen, ?_⟩
      intro h
      omega
    · rw [if_neg hlen]
      refine ⟨?_, ?_⟩
      · constructor
        · intro h
          exfalso
          repeat' split at h
          all_goals cases h
        · intro h
          exact absurd h hlen
      · intro _
        repeat' split
        all_goals first
          | exact Or.inr rfl
          | exact Or.inl ⟨_, rfl⟩
  exact key _ _

/-! ### The registry -/

theorem getAlgorithm_of_stored {T D : Type}
    (construct : String → AlgorithmManager T D →
      Except Fatal (AlgorithmCore T D × AlgorithmManager T D))
    (algorithm : String) (hne : algorithm ≠ "") (m : AlgorithmManager T D) (v : Option Nat)
    (hv : m.algorithms.lookup algorithm = some v) :
    AlgorithmManager.getAlgorithm construct algorithm m = Except.ok (v, m) := by
  unfold AlgorithmManager.getAlgorithm
  rw [if_neg hne]
  simp [AlgorithmHash.containsKey, AlgorithmHash.index, hv]

theorem getAlgorithm_stores {T D : Type}
    (construct : String → AlgorithmManager T D →
      Except Fatal (AlgorithmCore T D × AlgorithmManager T D))
    (algorithm : String) (m m' : AlgorithmManager T D) (p : Option Nat)
    (h : AlgorithmManager.getAlgorithm construct algorithm m = Except.ok (p, m')) :
    m'.algorithms.lookup algorithm = some p := by
  unfold AlgorithmManager.getAlgorithm at h
  split at h
  · cases h
  · split at h
    · split at h
      · cases h
      · rename_i core m1 hcons
        simp only at h
        cases hl : m1.algorithms.lookup algorithm with
        | none =>
          simp [AlgorithmHash.containsKey, AlgorithmHash.index, AlgorithmHash.insertValue, hl]
            at h
          obtain ⟨rfl, rfl⟩ := h
          simp
        | some v =>
          simp [AlgorithmHash.containsKey, AlgorithmHash.index, hl] at h
          obtain ⟨rfl, rfl⟩ := h
          simpa using hl
    · rename_i hc
      cases hl : m.algorithms.lookup algorithm with
      | none => simp [AlgorithmHash.containsKey, hl] at hc
      | some v =>
        simp [AlgorithmHash.index, hl] at h
        obtain ⟨rfl, rfl⟩ := h
        simpa using hl

/-- C4: for a non-empty descriptor and any registry, a second `getAlgorithm` right after a
first one returns the same instance and leaves the registry as it is; an entry already
stored under the descriptor is returned and kept (the registry is unchanged); and when the
registry holds an entry under the descriptor by the time the lock is taken, that entry is
kept and returned and the candidate just built is not inserted, while with no such entry
the candidate is inserted and returned. -/
theorem getAlgorithm_same_instance {T D : Type}
    (construct : String → AlgorithmManager T D →
      Except Fatal (AlgorithmCore T D × AlgorithmManager T D))
    (algorithm : String) (hne : algorithm ≠ "") (m : AlgorithmManager T D) :
    (∀ (p : Option Nat) (m' : AlgorithmManager T D),
      AlgorithmManager.getAlgorithm construct algorithm m = Except.ok (p, m') →
      AlgorithmManager.getAlgorithm construct algorithm m' = Except.ok (p, m')) ∧
    (∀ v : Option Nat, m.algorithms.lookup algorithm = some v →
      AlgorithmManager.getAlgorithm construct algorithm m = Except.ok (v, m)) ∧
    (∀ (core : AlgorithmCore T D) (m1 : AlgorithmManager T D) (v : Option Nat),
      m.algorithms.lookup algorithm = none → construct algorithm m = Except.ok (core, m1) →
      m1.algorithms.lookup algorithm = some v →
      AlgorithmManager.getAlgorithm construct algorithm m =
        Except.ok (v, { m1 with heap := m1.heap ++ [core] })) ∧
    (∀ (core : AlgorithmCore T D) (m1 : AlgorithmManager T D),
      m.algorithms.lookup algorithm = none → construct algorithm m = Except.ok (core, m1) →
      m1.algorithms.lookup algorithm = none →
      AlgorithmManager.getAlgorithm construct algorithm m =
        Except.ok (some m1.heap.length,
          { algorithms := m1.algorithms.insertValue algorithm (some m1.heap.length),
            heap := m1.heap ++ [core] })) := by
  refine ⟨?_, ?_, ?_, ?_⟩
  · intro p m' h
    exact getAlgorithm_of_stored construct algorithm hne m' p
      (getAlgorithm_stores construct algorithm m m' p h)
  · intro v hv
    exact getAlgorithm_of_stored construct algorithm hne m v hv
  · intro core m1 v hm hcons hv
    unfold AlgorithmManager.getAlgorithm
    rw [if_neg hne]
    simp [AlgorithmHash.containsKey, AlgorithmHash.index, hm, hcons, hv]
  · intro core m1 hm hcons hv
    unfold AlgorithmManager.getAlgorithm
    rw [if_neg hne]
    simp [AlgorithmHash.containsKey, AlgorithmHash.index, AlgorithmHash.insertValue, hm, hcons,
      hv]

/-- The descriptor `FaceDetect:L2` looked up twice, starting from the empty registry. -/
theorem getAlgorithm_same_instance_witness :
    AlgorithmManager.getAlgorithm
        (AlgorithmManager.constructAlone samplePlugins sampleGlobals [] 3) "FaceDetect:L2"
        { algorithms := [("FaceDetect:L2", some 0)],
          heap := [{ transform := some "FaceDetect", simplifiedTransform := some "FaceDetect",
                     comparison := some "GalleryCompare(L2)", distance := some "L2",
                     progressCounter := some "ProgressCounter", name := "FaceDetect:L2" }] } =
      Except.ok (some 0,
        { algorithms := [("FaceDetect:L2", some 0)],
          heap := [{ transform := some "FaceDetect", simplifiedTransform := some "FaceDetect",
                     comparison := some "GalleryCompare(L2)", distance := some "L2",
                     progressCounter := some "ProgressCounter", name := "FaceDetect:L2" }] }) :=
  (getAlgorithm_same_instance
      (AlgorithmManager.constructAlone samplePlugins sampleGlobals [] 3) "FaceDetect:L2"
      (by decide) { algorithms := [], heap := [] }).1 _ _ rfl

/-! ### Model persistence -/

/-- C5: let `m` be a classifier, a distance-based verifier or a transform-based verifier
(a core with an enrollment stage in which a distance comes with a comparison stage), and
let the stage and distance serialisers round-trip.  Then `store` writes the model file and
`load` into a fresh core on that file succeeds, and the loaded core has the same
`isClassifier()` and the same mode tag (as `store` computes it) as `m`; its enrollment
stage and distance are those of `m`. -/
theorem store_load_roundtrip {T D : Type} (P : Plugins T D) (hT : TransformRoundTrip P)
    (hD : DistanceRoundTrip P) (m : AlgorithmCore T D) (t : T) (ht : m.transform = some t)
    (hkind : m.distance.isSome = true → m.comparison.isSome = true)
    (hG : m.distance.isSome = true → (P.makeTransform "GalleryCompare").isSome = true)
    (fs : FileSystem) (model name : String) :
    ∃ (fs1 : FileSystem) (m1 : AlgorithmCore T D),
      AlgorithmCore.store P m model fs = Except.ok fs1 ∧
      AlgorithmCore.load P fs1 model { AlgorithmCore.fresh T D with name := name }
        = Except.ok m1 ∧
      m1.isClassifier = m.isClassifier ∧ m1.storedMode = m.storedMode ∧
      m1.transform = m.transform ∧ m1.distance = m.distance := by
  cases hd : m.distance with
  | some d =>
    have hc : m.comparison.isSome = true := hkind (by simp [hd])
    have hg : (P.makeTransform "GalleryCompare").isSome = true := hG (by simp [hd])
    obtain ⟨cmp, hcmp⟩ := Option.isSome_iff_exists.mp hc
    obtain ⟨g, hg⟩ := Option.isSome_iff_exists.mp hg
    have h1 := hT t (Datum.int32 1 :: P.serializeDistance d)
    have h2 := hD d []
    simp only [List.append_nil] at h2
    refine ⟨fs.writeFile model
      (P.serializeTransform t ++ [Datum.int32 1] ++ P.serializeDistance d),
      { AlgorithmCore.fresh T D with
        name := name, transform := some t, distance := some d,
        comparison := some (P.setDistance g d) }, ?_, ?_, ?_⟩
    · simp [AlgorithmCore.store, ht, hd, AlgorithmCore.storedMode, CompareMode.toInt32]
    · simp [AlgorithmCore.load, FileSystem.readFile, FileSystem.writeFile, List.lookup, h1,
        readInt32, CompareMode.toInt32, h2, hg, AlgorithmCore.fresh]
    · simp [AlgorithmCore.isClassifier, AlgorithmCore.storedMode, hcmp, hd, ht]
  | none =>
    cases hc : m.comparison with
    | some cmp =>
      have h1 := hT t (Datum.int32 2 :: P.serializeTransform cmp)
      have h2 := hT cmp []
      simp only [List.append_nil] at h2
      refine ⟨fs.writeFile model
        (P.serializeTransform t ++ [Datum.int32 2] ++ P.serializeTransform cmp),
        { AlgorithmCore.fresh T D with
          name := name, transform := some t, comparison := some cmp }, ?_, ?_, ?_⟩
      · simp [AlgorithmCore.store, ht, hd, hc, AlgorithmCore.storedMode, CompareMode.toInt32]
      · simp [AlgorithmCore.load, FileSystem.readFile, FileSystem.writeFile, List.lookup, h1,
          readInt32, CompareMode.toInt32, h2, AlgorithmCore.fresh]
      · simp [AlgorithmCore.isClassifier, AlgorithmCore.storedMode, hc, hd, ht,
          AlgorithmCore.fresh]
    | none =>
      have h1 := hT t [Datum.int32 0]
      refine ⟨fs.writeFile model (P.serializeTransform t ++ [Datum.int32 0]),
        { AlgorithmCore.fresh T D with name := name, transform := some t }, ?_, ?_, ?_⟩
      · simp [AlgorithmCore.store, ht, hd, hc, AlgorithmCore.storedMode, CompareMode.toInt32]
      · simp [AlgorithmCore.load, FileSystem.readFile, FileSystem.writeFile, List.lookup, h1,
          readInt32, CompareMode.toInt32, AlgorithmCore.fresh]
      · simp [AlgorithmCore.isClassifier, AlgorithmCore.storedMode, hc, hd, ht,
          AlgorithmCore.fresh]

/-- A distance-based verifier stored and loaded again through the sample plugin layer. -/
theorem store_load_roundtrip_witness :
    ∃ (fs1 : FileSystem) (m1 : AlgorithmCore String String),
      AlgorithmCore.store samplePlugins sampleVerifier "face.model" [] = Except.ok fs1 ∧
      AlgorithmCore.load samplePlugins fs1 "face.model"
        { AlgorithmCore.fresh String String with name := "face.model" } = Except.ok m1 ∧
      m1.isClassifier = sampleVerifier.isClassifier ∧
      m1.storedMode = sampleVerifier.storedMode ∧
      m1.transform = sampleVerifier.transform ∧ m1.distance = sampleVerifier.distance :=
  store_load_roundtrip samplePlugins (fun _ _ => rfl) (fun _ _ => rfl) sampleVerifier
    "FaceDetect" rfl (fun _ => rfl) (fun _ => rfl) [] "face.model" "face.model"

/-! ### Enrollment and comparison -/

theorem enrollPlan_fields {T D W : Type} (R : Runtime T D W) (core : AlgorithmCore T D)
    (input gallery : File) (w : W) (plan : EnrollPlan)
    (h : core.enrollPlan R input gallery w = some plan) :
    plan.input = input ∧
    plan.gallery = (if gallery.name = "" then core.getMemoryGallery R input else gallery) ∧
    plan.fileExclusion = (R.containsKey plan.gallery "append" && R.fileExists w plan.gallery) := by
  unfold AlgorithmCore.enrollPlan at h
  by_cases hg : gallery.name = ""
  · by_cases hi : input.name = ""
    · simp [hg, hi] at h
    · simp only [hg, hi, if_true, if_false] at h
      cases h
      simp [hg]
  · simp only [hg, if_false] at h
    cases h
    simp [hg]

theorem enroll_ok_cases {T D W : Type} (R : Runtime T D W) (core : AlgorithmCore T D)
    (input gallery : File) (s s1 : Session W) (fl : FileList)
    (h : core.enroll R input gallery s = Except.ok (fl, s1)) :
    (core.enrollPlan R input gallery s.world = none ∧ fl = [] ∧ s1 = s) ∨
    (∃ (plan : EnrollPlan) (stage : T),
      core.enrollPlan R input gallery s.world = some plan ∧
      core.simplifiedTransform = some stage ∧
      runEnrollPipeline R stage plan s = (fl, s1)) := by
  unfold AlgorithmCore.enroll at h
  split at h
  · cases h
    exact Or.inl ⟨by assumption, rfl, rfl⟩
  · rename_i plan hplan
    split at h
    · cases h
    · rename_i stage hstage
      cases h
      exact Or.inr ⟨plan, stage, hplan, hstage, rfl⟩

theorem compareColumn_cases {T D W : Type} (R : Runtime T D W) (core : AlgorithmCore T D)
    (colGallery ce : File) (step : ColumnStep) (s s1 : Session W)
    (h : core.compareColumn R colGallery s = Except.ok (ce, step, s1)) :
    (R.suffix colGallery = "mem" ∧ ce = colGallery ∧ step = ColumnStep.asIs ∧ s1 = s) ∨
    (R.suffix colGallery ≠ "mem" ∧
      ce = R.toFile (R.baseName colGallery ++ R.hash colGallery ++ "." ++ "mem") ∧
      ((["gal", "template", "mem"].contains (R.suffix colGallery) = true ∧
          step = ColumnStep.converted ∧
          s1 = { s with world := R.writeBlock s.world ce (R.read s.world colGallery),
                        writes := s.writes ++ [(ce, R.read s.world colGallery)] }) ∨
       (["gal", "template", "mem"].contains (R.suffix colGallery) = false ∧
          step = ColumnStep.enrolled ∧
          ∃ fl, core.enroll R colGallery ce s = Except.ok (fl, s1)))) := by
  unfold AlgorithmCore.compareColumn at h
  simp only at h
  split at h
  · rename_i hs
    refine Or.inr ⟨hs, ?_⟩
    split at h
    · rename_i hc
      split at h
      · cases h
      · rename_i fl s2 he
        cases h
        exact ⟨rfl, Or.inr ⟨hc, rfl, fl, he⟩⟩
    · rename_i hc
      cases h
      exact ⟨rfl, Or.inl ⟨Bool.of_not_eq_false hc, rfl, rfl⟩⟩
  · rename_i hs
    cases h
    exact Or.inl ⟨by simpa using hs, rfl, rfl, rfl⟩

theorem compareOriented_ok {T D W : Type} (R : Runtime T D W) (core : AlgorithmCore T D)
    (selfCompare multiProcess transposeMode : Bool)
    (targetGallery queryGallery output rowGallery colGallery : File) (s s' : Session W)
    (o : CompareOutcome)
    (h : core.compareOriented R selfCompare multiProcess transposeMode targetGallery
      queryGallery output rowGallery colGallery s = Except.ok (o, s')) :
    ∃ (ce : File) (step : ColumnStep) (s1 : Session W) (comparison : T) (stage : Option T),
      core.compareColumn R colGallery s = Except.ok (ce, step, s1) ∧
      core.comparison = some comparison ∧
      ((compareRowDecision R selfCompare rowGallery ce).2 = false → stage = none) ∧
      ((compareRowDecision R selfCompare rowGallery ce).2 = true →
        ∃ st, core.simplifiedTransform = some st ∧ stage = some st) ∧
      o = CompareOutcome.ran
        { selfCompare := selfCompare, multiProcess := multiProcess,
          transposeMode := transposeMode,
          needEnrollRows := (compareRowDecision R selfCompare rowGallery ce).2,
          targetGallery := targetGallery, queryGallery := queryGallery,
          rowGallery := (compareRowDecision R selfCompare rowGallery ce).1,
          colGallery := colGallery, colEnrolledGallery := ce, columnStep := step,
          rowSize := R.totalSize s.world rowGallery,
          enrollCompare :=
            (if (compareRowDecision R selfCompare rowGallery ce).2
              then [RegionStage.enrollment] else []) ++ [RegionStage.comparison],
          outputRegionDesc := outputRegionDesc R output targetGallery queryGallery transposeMode }
        (runComparePipeline R stage comparison (R.read s1.world ce)
          (compareRowDecision R selfCompare rowGallery ce).1 s1).1 ∧
      s' = (runComparePipeline R stage comparison (R.read s1.world ce)
          (compareRowDecision R selfCompare rowGallery ce).1 s1).2 := by
  unfold AlgorithmCore.compareOriented at h
  simp only at h
  split at h
  · cases h
  · rename_i ce step s1 hcol
    split at h
    · cases h
    · rename_i comparison hcmp
      split at h
      · cases h
      · rename_i stage hstage
        cases h
        refine ⟨ce, step, s1, comparison, stage, hcol, hcmp, ?_, ?_, rfl, rfl⟩
        · intro hn
          rw [hn] at hstage
          simpa using hstage.symm
        · intro hn
          rw [hn] at hstage
          simp only [if_true] at hstage
          split at hstage
          · cases hstage
          · rename_i st hst
            cases hstage
            exact ⟨st, hst, rfl⟩

theorem compare_ok {T D W : Type} (R : Runtime T D W) (core : AlgorithmCore T D)
    (targetGallery queryGallery output : File) (s s' : Session W) (o : CompareOutcome)
    (h : core.compare R targetGallery queryGallery output s = Except.ok (o, s')) :
    (o = CompareOutcome.handledByDistance ∧ s' = s) ∨ (o = CompareOutcome.cached ∧ s' = s) ∨
    core.compareOriented R (decide (targetGallery = queryGallery))
      (R.getBool R.globalsFile "multiProcess")
      (compareOrientation targetGallery
        (if queryGallery.name = "." then targetGallery else queryGallery)
        (R.files s.world targetGallery).length
        (R.files s.world (if queryGallery.name = "." then targetGallery else queryGallery)).length).1
      targetGallery (if queryGallery.name = "." then targetGallery else queryGallery) output
      (compareOrientation targetGallery
        (if queryGallery.name = "." then targetGallery else queryGallery)
        (R.files s.world targetGallery).length
        (R.files s.world (if queryGallery.name = "." then targetGallery else queryGallery)).length).2.1
      (compareOrientation targetGallery
        (if queryGallery.name = "." then targetGallery else queryGallery)
        (R.files s.world targetGallery).length
        (R.files s.world (if queryGallery.name = "." then targetGallery else queryGallery)).length).2.2
      s = Except.ok (o, s') := by
  unfold AlgorithmCore.compare at h
  simp only at h
  split at h
  · cases h
    exact Or.inl ⟨rfl, rfl⟩
  · split at h
    · cases h
      exact Or.inr (Or.inl ⟨rfl, rfl⟩)
    · exact Or.inr (Or.inr h)

theorem compareOrientation_fst (targetGallery queryGallery : File) (nt nq : Nat) :
    (compareOrientation targetGallery queryGallery nt nq).1 = decide (nt > nq) := by
  unfold compareOrientation
  by_cases h : nt > nq <;> simp [h]

theorem compareOrientation_row (targetGallery queryGallery : File) (nt nq : Nat) :
    (compareOrientation targetGallery queryGallery nt nq).2.1 =
      if nt > nq then targetGallery else queryGallery := by
  unfold compareOrientation
  by_cases h : nt > nq <;> simp [h]

theorem compareOrientation_col (targetGallery queryGallery : File) (nt nq : Nat) :
    (compareOrientation targetGallery queryGallery nt nq).2.2 =
      if nt > nq then queryGallery else targetGallery := by
  unfold compareOrientation
  by_cases h : nt > nq <;> simp [h]

theorem compareRowDecision_fst {T D W : Type} (R : Runtime T D W) (selfCompare : Bool)
    (rowGallery ce : File) :
    (compareRowDecision R selfCompare rowGallery ce).1 =
      if selfCompare then ce else rowGallery := by
  unfold compareRowDecision
  cases selfCompare
  · simp only [Bool.false_eq_true, if_false]
    split <;> rfl
  · simp

theorem compareRowDecision_snd {T D W : Type} (R : Runtime T D W) (selfCompare : Bool)
    (rowGallery ce : File) :
    (compareRowDecision R selfCompare rowGallery ce).2 =
      (!selfCompare && !(["gal", "mem", "template"].contains (R.suffix rowGallery))) := by
  unfold compareRowDecision
  cases selfCompare
  · simp only [Bool.false_eq_true, if_false]
    split <;> simp_all
  · simp

/-- The claim C6 fails on two enrolled galleries of one record each with a score that is
not symmetric: both calls stream their query against their resident target, so the entry
for the pair is `score a b` in one matrix and `score b a` in the other. -/
theorem compare_transpose_counterexample :
    ∃ (o1 o2 : CompareOutcome) (s1 s2 : Session SampleWorld),
      sampleVerifier.compare sampleRuntime (fileNamed "A.mem") (fileNamed "B.mem")
        (fileNamed "ab.mtx") sampleSession = Except.ok (o1, s1) ∧
      sampleVerifier.compare sampleRuntime (fileNamed "B.mem") (fileNamed "A.mem")
        (fileNamed "ba.mtx") sampleSession = Except.ok (o2, s2) ∧
      o1.scoreAt 0 0 = some 12 ∧ o2.scoreAt 0 0 = some 21 ∧
      ¬ (∀ i j : Nat, o1.scoreAt i j = o2.scoreAt j i) :=
  ⟨_, _, _, _, rfl, rfl, rfl, rfl, fun h => absurd (h 0 0) (by decide)⟩

/-- The case of different record counts: both calls stream the larger set against the
smaller one and differ in the transpose flag only, so the score matrices they write are
exact transposes of each other, for any comparison stage. -/
theorem compare_transpose_of_sizes_ne {T D W : Type} (R : Runtime T D W)
    (core : AlgorithmCore T D) (A B out out' : File) (s s1 s2 : Session W)
    (p1 p2 : ComparePlan) (r1 r2 : List (List Score))
    (hA : A.name ≠ ".") (hB : B.name ≠ ".")
    (hsize : (R.files s.world A).length ≠ (R.files s.world B).length)
    (h1 : core.compare R A B out s = Except.ok (CompareOutcome.ran p1 r1, s1))
    (h2 : core.compare R B A out' s = Except.ok (CompareOutcome.ran p2 r2, s2)) :
    ∀ i j : Nat,
      (CompareOutcome.ran p1 r1).scoreAt i j = (CompareOutcome.ran p2 r2).scoreAt j i := by
  have hAB : A ≠ B := by
    intro e
    subst e
    exact hsize rfl
  have hBA : B ≠ A := fun e => hAB e.symm
  have k1 := compare_ok R core A B out s s1 _ h1
  have k2 := compare_ok R core B A out' s s2 _ h2
  simp only [hA, hB, if_false, false_and, false_or, reduceCtorEq, compareOrientation_fst,
    compareOrientation_row, compareOrientation_col, decide_eq_false hAB,
    decide_eq_false hBA] at k1 k2
  obtain ⟨ce1, st1, t1, c1, g1, hc1, hm1, hn1, hy1, ho1, -⟩ := compareOriented_ok _ _ _ _ _ _ _ _ _ _ _ _ _ k1
  obtain ⟨ce2, st2, t2, c2, g2, hc2, hm2, hn2, hy2, ho2, -⟩ := compareOriented_ok _ _ _ _ _ _ _ _ _ _ _ _ _ k2
  rcases Nat.lt_or_gt_of_ne hsize with hlt | hgt
  · have e1 : ¬ (R.files s.world A).length > (R.files s.world B).length := by omega
    have e2 : (R.files s.world B).length > (R.files s.world A).length := hlt
    simp only [e1, e2, if_true, if_false] at hc1 hc2 hn1 hn2 hy1 hy2 ho1 ho2
    rw [hc1] at hc2
    cases hc2
    rw [hm1] at hm2
    cases hm2
    have hg : g1 = g2 := by
      cases hrd : (compareRowDecision R false B ce1).2 with
      | false => rw [hn1 hrd, hn2 hrd]
      | true =>
        obtain ⟨x1, hx1, rfl⟩ := hy1 hrd
        obtain ⟨x2, hx2, rfl⟩ := hy2 hrd
        rw [hx1] at hx2
        exact hx2
    subst hg
    cases ho1
    cases ho2
    intro i j
    simp [CompareOutcome.scoreAt, persistedScore, e1, e2]
  · have e1 : (R.files s.world A).length > (R.files s.world B).length := hgt
    have e2 : ¬ (R.files s.world B).length > (R.files s.world A).length := by omega
    simp only [e1, e2, if_true, if_false] at hc1 hc2 hn1 hn2 hy1 hy2 ho1 ho2
    rw [hc1] at hc2
    cases hc2
    rw [hm1] at hm2
    cases hm2
    have hg : g1 = g2 := by
      cases hrd : (compareRowDecision R false A ce1).2 with
      | false => rw [hn1 hrd, hn2 hrd]
      | true =>
        obtain ⟨x1, hx1, rfl⟩ := hy1 hrd
        obtain ⟨x2, hx2, rfl⟩ := hy2 hrd
        rw [hx1] at hx2
        exact hx2
    subst hg
    cases ho1
    cases ho2
    intro i j
    simp [CompareOutcome.scoreAt, persistedScore, e1, e2]

theorem runComparePipeline_rows {T D W : Type} (R : Runtime T D W) (core : AlgorithmCore T D)
    (rowGallery colGallery ce : File) (step : ColumnStep) (s t1 : Session W) (cmp : T)
    (g : Option T)
    (hc : core.compareColumn R colGallery s = Except.ok (ce, step, t1))
    (hn : (compareRowDecision R (decide (colGallery = rowGallery)) rowGallery ce).2 = false →
      g = none)
    (hy : (compareRowDecision R (decide (colGallery = rowGallery)) rowGallery ce).2 = true →
      ∃ st, core.simplifiedTransform = some st ∧ g = some st) :
    (runComparePipeline R g cmp (R.read t1.world ce)
        (compareRowDecision R (decide (colGallery = rowGallery)) rowGallery ce).1 t1).1 =
      (core.streamedRecords R rowGallery colGallery s).map
        (R.compareRow cmp (core.residentRecords R colGallery s)) := by
  unfold AlgorithmCore.streamedRecords AlgorithmCore.residentRecords
  rw [hc]
  simp only
  cases hrd : (compareRowDecision R (decide (colGallery = rowGallery)) rowGallery ce).2 with
  | false =>
    rw [hn hrd]
    simp [runComparePipeline]
  | true =>
    obtain ⟨st, hst, rfl⟩ := hy hrd
    rw [hst]
    simp [runComparePipeline]

theorem residentRecords_of_mem {T D W : Type} (R : Runtime T D W) (core : AlgorithmCore T D)
    (A : File) (s : Session W) (hA : R.suffix A = "mem") :
    core.residentRecords R A s = R.read s.world A := by
  unfold AlgorithmCore.residentRecords AlgorithmCore.compareColumn
  simp [hA]

theorem streamedRecords_of_mem {T D W : Type} (R : Runtime T D W) (core : AlgorithmCore T D)
    (A B : File) (s : Session W) (hA : R.suffix A = "mem") (hB : R.suffix B = "mem") :
    core.streamedRecords R A B s = R.read s.world A := by
  unfold AlgorithmCore.streamedRecords AlgorithmCore.compareColumn
  simp only [hB, ne_eq, not_true_eq_false, if_false]
  rw [compareRowDecision_fst, compareRowDecision_snd]
  by_cases h : B = A
  · subst h
    simp
  · simp [h, hA]

theorem streamedRecords_self {T D W : Type} (R : Runtime T D W) (core : AlgorithmCore T D)
    (A : File) (s : Session W) :
    core.streamedRecords R A A s = core.residentRecords R A s := by
  unfold AlgorithmCore.streamedRecords AlgorithmCore.residentRecords
  cases core.compareColumn R A s with
  | error e => rfl
  | ok r => simp [compareRowDecision]

theorem persistedScore_pointwise (score : Template → Template → Score)
    (ra rb : TemplateList) (i j : Nat) :
    persistedScore false (rb.map (fun r => ra.map (fun c => score c r))) i j =
      rb[i]?.bind (fun b => ra[j]?.map (fun a => score a b)) := by
  unfold persistedScore
  simp only [Bool.false_eq_true, if_false, List.getElem?_map]
  cases h : rb[i]? with
  | none => rfl
  | some b => simp [List.getElem?_map]

theorem symmetric_entries (score : Template → Template → Score)
    (hs : ∀ a b : Template, score a b = score b a) (ra rb : TemplateList) (i j : Nat) :
    persistedScore false (rb.map (fun r => ra.map (fun c => score c r))) i j =
      persistedScore false (ra.map (fun r => rb.map (fun c => score c r))) j i := by
  rw [persistedScore_pointwise, persistedScore_pointwise]
  cases hb : rb[i]? with
  | none =>
    cases ha : ra[j]? <;> rfl
  | some b =>
    cases ha : ra[j]? with
    | none => rfl
    | some a => simp [hs a b]

/-- C6, amended: let neither of two record sets A and B be given as the shorthand `.`, and
let `compare(A, B, out)` and `compare(B, A, out')` both run their stream from the same
state.  When the record counts differ, the score matrices they write are exact transposes
of each other for any comparison stage: the entry at (i, j) of the one is the entry at
(j, i) of the other.  When the record counts are equal, they are exact transposes provided
that the comparison stage scores every pair of records on its own and symmetrically, and
that each set reaches the comparison stage as the same records when it is streamed as when
it is held resident. -/
theorem compare_transpose_of_sizes_ne_or_symmetric {T D W : Type} (R : Runtime T D W)
    (core : AlgorithmCore T D) (A B out out' : File) (s s1 s2 : Session W)
    (p1 p2 : ComparePlan) (r1 r2 : List (List Score))
    (hA : A.name ≠ ".") (hB : B.name ≠ ".")
    (hcase : (R.files s.world A).length ≠ (R.files s.world B).length ∨
      ((∀ c, core.comparison = some c → SymmetricScoring R c) ∧
        core.residentRecords R A s = core.streamedRecords R A B s ∧
        core.residentRecords R B s = core.streamedRecords R B A s))
    (h1 : core.compare R A B out s = Except.ok (CompareOutcome.ran p1 r1, s1))
    (h2 : core.compare R B A out' s = Except.ok (CompareOutcome.ran p2 r2, s2)) :
    ∀ i j : Nat,
      (CompareOutcome.ran p1 r1).scoreAt i j = (CompareOutcome.ran p2 r2).scoreAt j i := by
  by_cases hsize : (R.files s.world A).length = (R.files s.world B).length
  · rcases hcase with hne | ⟨hsym, hrA, hrB⟩
    · exact absurd hsize hne
    · have k1 := compare_ok R core A B out s s1 _ h1
      have k2 := compare_ok R core B A out' s s2 _ h2
      have e1 : ¬ (R.files s.world A).length > (R.files s.world B).length := by omega
      have e2 : ¬ (R.files s.world B).length > (R.files s.world A).length := by omega
      simp only [hA, hB, if_false, false_and, false_or, reduceCtorEq, compareOrientation_fst,
        compareOrientation_row, compareOrientation_col, e1, e2, decide_False] at k1 k2
      obtain ⟨ce1, st1, t1, c1, g1, hc1, hm1, hn1, hy1, ho1, -⟩ :=
        compareOriented_ok _ _ _ _ _ _ _ _ _ _ _ _ _ k1
      obtain ⟨ce2, st2, t2, c2, g2, hc2, hm2, hn2, hy2, ho2, -⟩ :=
        compareOriented_ok _ _ _ _ _ _ _ _ _ _ _ _ _ k2
      rw [hm1] at hm2
      cases hm2
      obtain ⟨score, hs, hrow⟩ := hsym c1 hm1
      have hr1 := runComparePipeline_rows R core B A ce1 st1 s t1 c1 g1 hc1 hn1 hy1
      have hr2 := runComparePipeline_rows R core A B ce2 st2 s t2 c1 g2 hc2 hn2 hy2
      rw [hr1] at ho1
      rw [hr2] at ho2
      cases ho1
      cases ho2
      intro i j
      simp only [CompareOutcome.scoreAt]
      rw [← hrA, ← hrB]
      have hf : ∀ tlist : TemplateList,
          R.compareRow c1 tlist = fun r => tlist.map (fun c => score c r) :=
        fun tlist => funext (hrow tlist)
      rw [hf, hf]
      exact symmetric_entries score hs _ _ i j
  · exact compare_transpose_of_sizes_ne R core A B out out' s s1 s2 p1 p2 r1 r2 hA hB hsize
      h1 h2

/-- Three pairs of runs on the sample store.  A one-record gallery against a two-record
gallery, in both orders, with a score that is not symmetric.  A raw list of two records
against an enrolled gallery of two records, in both orders, with a symmetric score: the
list is enrolled to the same records when it is the resident set as when it is streamed.
And the two one-record galleries of the counterexample, with a symmetric score. -/
theorem compare_transpose_of_sizes_ne_or_symmetric_witness :
    (∃ (p1 p2 : ComparePlan) (r1 r2 : List (List Score)) (s1 s2 : Session SampleWorld),
      sampleVerifier.compare sampleRuntime (fileNamed "A.mem") (fileNamed "P.mem")
        (fileNamed "ap.mtx") sampleSession = Except.ok (CompareOutcome.ran p1 r1, s1) ∧
      sampleVerifier.compare sampleRuntime (fileNamed "P.mem") (fileNamed "A.mem")
        (fileNamed "pa.mtx") sampleSession = Except.ok (CompareOutcome.ran p2 r2, s2) ∧
      p1.transposeMode = false ∧ p2.transposeMode = true ∧
      (CompareOutcome.ran p1 r1).scoreAt 1 0 = some 14 ∧
      ∀ i j : Nat,
        (CompareOutcome.ran p1 r1).scoreAt i j = (CompareOutcome.ran p2 r2).scoreAt j i) ∧
    (∃ (p1 p2 : ComparePlan) (r1 r2 : List (List Score)) (s1 s2 : Session SampleWorld),
      sampleVerifier.compare symmetricRuntime (fileNamed "C.csv") (fileNamed "P.mem")
        (fileNamed "cp.mtx") sampleSession = Except.ok (CompareOutcome.ran p1 r1, s1) ∧
      sampleVerifier.compare symmetricRuntime (fileNamed "P.mem") (fileNamed "C.csv")
        (fileNamed "pc.mtx") sampleSession = Except.ok (CompareOutcome.ran p2 r2, s2) ∧
      p1.transposeMode = false ∧ p2.transposeMode = false ∧
      p1.needEnrollRows = false ∧ p2.needEnrollRows = true ∧
      (CompareOutcome.ran p1 r1).scoreAt 1 0 = some 11 ∧
      ∀ i j : Nat,
        (CompareOutcome.ran p1 r1).scoreAt i j = (CompareOutcome.ran p2 r2).scoreAt j i) ∧
    (∃ (p1 p2 : ComparePlan) (r1 r2 : List (List Score)) (s1 s2 : Session SampleWorld),
      sampleVerifier.compare symmetricRuntime (fileNamed "A.mem") (fileNamed "B.mem")
        (fileNamed "ab.mtx") sampleSession = Except.ok (CompareOutcome.ran p1 r1, s1) ∧
      sampleVerifier.compare symmetricRuntime (fileNamed "B.mem") (fileNamed "A.mem")
        (fileNamed "ba.mtx") sampleSession = Except.ok (CompareOutcome.ran p2 r2, s2) ∧
      p1.transposeMode = false ∧ p2.transposeMode = false ∧
      (CompareOutcome.ran p1 r1).scoreAt 0 0 = some 3 ∧
      ∀ i j : Nat,
        (CompareOutcome.ran p1 r1).scoreAt i j = (CompareOutcome.ran p2 r2).scoreAt j i) :=
  ⟨⟨_, _, _, _, _, _, rfl, rfl, rfl, rfl, rfl,
      compare_transpose_of_sizes_ne_or_symmetric sampleRuntime sampleVerifier
        (fileNamed "A.mem") (fileNamed "P.mem") (fileNamed "ap.mtx") (fileNamed "pa.mtx")
        sampleSession _ _ _ _ _ _ (by decide) (by decide) (Or.inl (by decide)) rfl rfl⟩,
    ⟨_, _, _, _, _, _, rfl, rfl, rfl, rfl, rfl, rfl, rfl,
      compare_transpose_of_sizes_ne_or_symmetric symmetricRuntime sampleVerifier
        (fileNamed "C.csv") (fileNamed "P.mem") (fileNamed "cp.mtx") (fileNamed "pc.mtx")
        sampleSession _ _ _ _ _ _ (by decide) (by decide)
        (Or.inr ⟨fun _ _ => ⟨fun c r => c.m.headD 0 + r.m.headD 0,
          fun a b => Int.add_comm _ _, fun _ _ => rfl⟩, rfl, rfl⟩) rfl rfl⟩,
    ⟨_, _, _, _, _, _, rfl, rfl, rfl, rfl, rfl,
      compare_transpose_of_sizes_ne_or_symmetric symmetricRuntime sampleVerifier
        (fileNamed "A.mem") (fileNamed "B.mem") (fileNamed "ab.mtx") (fileNamed "ba.mtx")
        sampleSession _ _ _ _ _ _ (by decide) (by decide)
        (Or.inr ⟨fun _ _ => ⟨fun c r => c.m.headD 0 + r.m.headD 0,
          fun a b => Int.add_comm _ _, fun _ _ => rfl⟩,
          (residentRecords_of_mem symmetricRuntime sampleVerifier (fileNamed "A.mem")
            sampleSession rfl).trans
            (streamedRecords_of_mem symmetricRuntime sampleVerifier (fileNamed "A.mem")
              (fileNamed "B.mem") sampleSession rfl rfl).symm,
          (residentRecords_of_mem symmetricRuntime sampleVerifier (fileNamed "B.mem")
            sampleSession rfl).trans
            (streamedRecords_of_mem symmetricRuntime sampleVerifier (fileNamed "B.mem")
              (fileNamed "A.mem") sampleSession rfl rfl).symm⟩) rfl rfl⟩⟩

/-- C7: when `compare` runs its stream, the transpose flag is set exactly when the target
has strictly more records than the query; the row (streamed) set is then the target and
the column (resident) set the query, and otherwise the row set is the query and the column
set the target, so that the row set never has fewer records than the column set; and the
output stage is made from the output, the target and the query in this order, followed by
the flag.  (In a self-comparison the gallery streamed in the end is the resident column
gallery.) -/
theorem compare_orientation {T D W : Type} (R : Runtime T D W) (core : AlgorithmCore T D)
    (targetGallery queryGallery output : File) (s s' : Session W) (plan : ComparePlan)
    (rows : List (List Score))
    (h : core.compare R targetGallery queryGallery output s
      = Except.ok (CompareOutcome.ran plan rows, s')) :
    plan.targetGallery = targetGallery ∧
    plan.queryGallery = (if queryGallery.name = "." then targetGallery else queryGallery) ∧
    (plan.transposeMode = true ↔
      (R.files s.world plan.targetGallery).length > (R.files s.world plan.queryGallery).length) ∧
    (plan.transposeMode = true → plan.colGallery = plan.queryGallery ∧
      (plan.selfCompare = false → plan.rowGallery = plan.targetGallery)) ∧
    (plan.transposeMode = false → plan.colGallery = plan.targetGallery ∧
      (plan.selfCompare = false → plan.rowGallery = plan.queryGallery)) ∧
    (plan.targetGallery ≠ plan.queryGallery →
      (plan.transposeMode = true ↔
        (compareOrientation plan.targetGallery plan.queryGallery
          (R.files s.world plan.targetGallery).length
          (R.files s.world plan.queryGallery).length).2.1 = plan.targetGallery)) ∧
    (R.files s.world plan.colGallery).length ≤
      (R.files s.world (compareOrientation plan.targetGallery plan.queryGallery
          (R.files s.world plan.targetGallery).length
          (R.files s.world plan.queryGallery).length).2.1).length ∧
    (plan.selfCompare = true → plan.rowGallery = plan.colEnrolledGallery) ∧
    plan.outputRegionDesc =
      "Output(" ++ (if R.flat output = "" then "Empty" else R.flat output) ++ "," ++
        R.flat targetGallery ++ "," ++
        R.flat (if queryGallery.name = "." then targetGallery else queryGallery) ++ "," ++
        (if plan.transposeMode then "1" else "0") ++ ")" := by
  have k := compare_ok R core targetGallery queryGallery output s s' _ h
  simp only [false_and, false_or, reduceCtorEq] at k
  obtain ⟨ce, st, t1, c1, g1, -, -, -, -, ho, -⟩ := compareOriented_ok _ _ _ _ _ _ _ _ _ _ _ _ _ k
  cases ho
  clear h k
  refine ⟨rfl, rfl, ?_, ?_, ?_, ?_, ?_, ?_, rfl⟩
  · simp only [compareOrientation_fst, decide_eq_true_eq]
  · simp only [compareOrientation_fst, compareOrientation_col, compareRowDecision_fst,
      compareOrientation_row, decide_eq_true_eq]
    intro hgt
    refine ⟨by simp [hgt], ?_⟩
    intro hs
    have hne : targetGallery ≠ queryGallery := of_decide_eq_false hs
    simp [hne, hgt]
  · simp only [compareOrientation_fst, compareOrientation_col, compareRowDecision_fst,
      compareOrientation_row, decide_eq_false_iff_not]
    intro hgt
    refine ⟨by simp [hgt], ?_⟩
    intro hs
    have hne : targetGallery ≠ queryGallery := hs
    simp [hne, hgt]
  · simp only [compareOrientation_fst, compareOrientation_row, decide_eq_true_eq]
    intro hne
    by_cases hgt : (R.files s.world targetGallery).length >
        (R.files s.world (if queryGallery.name = "." then targetGallery else queryGallery)).length
    · simp [hgt]
    · simp only [hgt, if_false, false_iff]
      exact fun e => hne e.symm
  · simp only [compareOrientation_row, compareOrientation_col]
    by_cases hgt : (R.files s.world targetGallery).length >
        (R.files s.world (if queryGallery.name = "." then targetGallery else queryGallery)).length
    · simp only [hgt, if_true]
      omega
    · simp only [hgt, if_false]
      omega
  · intro hs
    simp only [compareRowDecision_fst]
    simp only at hs
    simp [hs]

/-- A raw list of two records as target against an enrolled gallery of one record. -/
theorem compare_orientation_witness :
    ∃ (plan : ComparePlan) (rows : List (List Score)) (s1 : Session SampleWorld),
      sampleVerifier.compare sampleRuntime (fileNamed "C.csv") (fileNamed "A.mem")
        (fileNamed "out.mtx") sampleSession = Except.ok (CompareOutcome.ran plan rows, s1) ∧
      plan.transposeMode = true ∧ plan.rowGallery = fileNamed "C.csv" ∧
      plan.colGallery = fileNamed "A.mem" ∧
      plan.outputRegionDesc = "Output(out.mtx,C.csv,A.mem,1)" ∧
      (plan.transposeMode = true ↔
        (sampleRuntime.files sampleWorld plan.targetGallery).length >
          (sampleRuntime.files sampleWorld plan.queryGallery).length) :=
  ⟨_, _, _, rfl, rfl, rfl, rfl, rfl,
    (compare_orientation sampleRuntime sampleVerifier (fileNamed "C.csv") (fileNamed "A.mem")
      (fileNamed "out.mtx") sampleSession _ _ _ rfl).2.2.1⟩

theorem enroll_stageInput {T D W : Type} (R : Runtime T D W) (core : AlgorithmCore T D)
    (input gallery : File) (s s1 : Session W) (fl : FileList)
    (h : core.enroll R input gallery s = Except.ok (fl, s1)) :
    (core.enrollPlan R input gallery s.world = none ∧ s1 = s) ∨
    (∃ plan : EnrollPlan, core.enrollPlan R input gallery s.world = some plan ∧
      s1.stageInput = s.stageInput ++ R.read s.world input ∧
      ∃ block, s1.writes = s.writes ++ [(plan.gallery, block)]) := by
  rcases enroll_ok_cases R core input gallery s s1 fl h with ⟨hn, -, hs⟩ | ⟨plan, stage, hp, -, hr⟩
  · exact Or.inl ⟨hn, hs⟩
  · refine Or.inr ⟨plan, hp, ?_⟩
    obtain ⟨hi, -, -⟩ := enrollPlan_fields R core input gallery s.world plan hp
    unfold runEnrollPipeline at hr
    simp only [Prod.mk.injEq] at hr
    obtain ⟨-, rfl⟩ := hr
    exact ⟨by simp [hi], _, rfl⟩

theorem runComparePipeline_none {T D W : Type} (R : Runtime T D W) (comparison : T)
    (tlist : TemplateList) (rowGallery : File) (s : Session W) :
    (runComparePipeline R none comparison tlist rowGallery s).2 = s := rfl

/-- C8: a call `compare(A, A, out)` hands the records of `A` to the enrollment stage at
most once (not at all, or once each while the column set is enrolled); when its stream
runs, it is a self-comparison whose row gallery is the enrolled column gallery, whose flag
`needEnrollRows` is off and whose list `enrollCompare` holds the comparison stage alone. -/
theorem compare_self_enrolls_once {T D W : Type} (R : Runtime T D W) (core : AlgorithmCore T D)
    (A output : File) (s s' : Session W) (o : CompareOutcome)
    (h : core.compare R A A output s = Except.ok (o, s')) :
    (s'.stageInput = s.stageInput ∨ s'.stageInput = s.stageInput ++ R.read s.world A) ∧
    ∀ (plan : ComparePlan) (rows : List (List Score)), o = CompareOutcome.ran plan rows →
      plan.selfCompare = true ∧ plan.rowGallery = plan.colEnrolledGallery ∧
      plan.needEnrollRows = false ∧ plan.enrollCompare = [RegionStage.comparison] := by
  rcases compare_ok R core A A output s s' o h with ⟨rfl, rfl⟩ | ⟨rfl, rfl⟩ | k
  · exact ⟨Or.inl rfl, fun _ _ e => by cases e⟩
  · exact ⟨Or.inl rfl, fun _ _ e => by cases e⟩
  · simp only [ite_self, decide_True, compareOrientation_fst, compareOrientation_row,
      compareOrientation_col, gt_iff_lt, lt_self_iff_false, if_false, decide_False] at k
    obtain ⟨ce, st, t1, c1, g1, hcol, -, hn, -, ho, hs⟩ :=
      compareOriented_ok _ _ _ _ _ _ _ _ _ _ _ _ _ k
    have hrd2 : (compareRowDecision R true A ce).2 = false := by
      simp [compareRowDecision_snd]
    have hrd1 : (compareRowDecision R true A ce).1 = ce := by
      simp [compareRowDecision_fst]
    have hg := hn hrd2
    subst hg
    rw [runComparePipeline_none] at hs
    subst hs
    refine ⟨?_, ?_⟩
    · rcases compareColumn_cases R core A ce st s s' hcol with
        ⟨-, -, -, rfl⟩ | ⟨-, -, ⟨-, -, rfl⟩ | ⟨-, -, fl, he⟩⟩
      · exact Or.inl rfl
      · exact Or.inl rfl
      · rcases enroll_stageInput R core A ce s s' fl he with ⟨-, rfl⟩ | ⟨plan, -, h1, -⟩
        · exact Or.inl rfl
        · exact Or.inr h1
    · intro plan rows e
      rw [ho] at e
      cases e
      simp [hrd1, hrd2]

/-- A raw list of two records compared with itself on the sample store. -/
theorem compare_self_enrolls_once_witness :
    ∃ (o : CompareOutcome) (s1 : Session SampleWorld),
      sampleVerifier.compare sampleRuntime (fileNamed "C.csv") (fileNamed "C.csv")
        (fileNamed "out.mtx") sampleSession = Except.ok (o, s1) ∧
      s1.stageInput = [{ file := fileNamed "c1.jpg", m := [] },
                       { file := fileNamed "c2.jpg", m := [] }] ∧
      (s1.stageInput = sampleSession.stageInput ∨
        s1.stageInput = sampleSession.stageInput ++
          sampleRuntime.read sampleSession.world (fileNamed "C.csv")) :=
  ⟨_, _, rfl, rfl,
    (compare_self_enrolls_once sampleRuntime sampleVerifier (fileNamed "C.csv")
      (fileNamed "out.mtx") sampleSession _ _ rfl).1⟩

theorem pairwiseLoop_eq (compare : Template → Template → Score) (targets : TemplateList) :
    ∀ (queries : TemplateList) (i : Nat) (written : List ScoreWrite),
      i + queries.length ≤ targets.length →
      pairwiseLoop compare targets i queries written =
        (none, written ++ ((queries.zip (targets.drop i)).enumFrom i).map
          (fun x => { value := compare x.2.1 x.2.2, row := 0, column := x.1 })) := by
  intro queries
  induction queries with
  | nil =>
    intro i written _
    simp [pairwiseLoop]
  | cons q queries ih =>
    intro i written h
    have hi : i < targets.length := by
      simp only [List.length_cons] at h
      omega
    have hdrop : targets.drop i = targets[i] :: targets.drop (i + 1) :=
      List.drop_eq_getElem_cons hi
    unfold pairwiseLoop
    rw [List.getElem?_eq_getElem hi]
    simp only
    rw [ih (i + 1) _ (by simp only [List.length_cons] at h; omega), hdrop]
    simp only [List.zip_cons_cons, List.enumFrom_cons, List.map_cons, List.append_assoc,
      List.singleton_append]

/-- The loop of `pairwiseCompare` on galleries of equal count with at least one record:
the call ends normally and writes one score per index `i`, the score of query `i` against
target `i`, at position `(0, i)`. -/
theorem pairwiseCompare_scores {T D W : Type} (R : Runtime T D W) (S : Scoring D)
    (core : AlgorithmCore T D) (d : D) (targetGallery queryGallery output t q : File)
    (queryFiles : FileList) (s s2 : Session W)
    (hd : core.distance = some d)
    (hg : core.pairwiseGalleries R targetGallery queryGallery s
      = Except.ok (t, q, queryFiles, s2))
    (heq : (R.files s2.world t).length = (R.files s2.world q).length)
    (hlen : (R.read s2.world q).length = (R.read s2.world t).length)
    (hpos : R.read s2.world t ≠ []) :
    (core.pairwiseCompare R S targetGallery queryGallery output s).fatal = none ∧
    (core.pairwiseCompare R S targetGallery queryGallery output s).scores =
      (((R.read s2.world q).zip (R.read s2.world t)).enum).map
        (fun x => { value := S.compare d x.2.1 x.2.2, row := 0, column := x.1 }) ∧
    (core.pairwiseCompare R S targetGallery queryGallery output s).scores.length =
      (R.read s2.world q).length := by
  have hloop := pairwiseLoop_eq (S.compare d) (R.read s2.world t) (R.read s2.world q) 0 []
    (by omega)
  simp only [List.drop_zero, List.nil_append] at hloop
  unfold AlgorithmCore.pairwiseCompare
  rw [hd]
  simp only [hg]
  rw [if_neg (by simpa using heq)]
  cases hrt : R.read s2.world t with
  | nil => exact absurd hrt hpos
  | cons first rest =>
    rw [hrt] at hloop hlen
    simp only [List.getElem?_cons_zero, hloop, List.enum]
    simp [hlen]

/-- The failing input of C12: two enrolled galleries without any record.  The counts agree
(zero and zero), and `pairwiseCompare` ends on the access `targets[0]` to an empty list,
before an output is made. -/
theorem pairwiseCompare_empty_galleries :
    (sampleRuntime.files pairwiseWorld (fileNamed "E.mem")).length = 0 ∧
    (sampleRuntime.files pairwiseWorld (fileNamed "F.mem")).length = 0 ∧
    sampleVerifier.distance = some "L2" ∧
    (sampleVerifier.pairwiseCompare sampleRuntime sampleScoring (fileNamed "E.mem")
      (fileNamed "F.mem") (fileNamed "out.mtx") pairwiseSession).fatal
      = some Fatal.invalidAccess ∧
    (sampleVerifier.pairwiseCompare sampleRuntime sampleScoring (fileNamed "E.mem")
      (fileNamed "F.mem") (fileNamed "out.mtx") pairwiseSession).output = none :=
  ⟨rfl, rfl, rfl, rfl, rfl⟩

/-! ### Deduplication -/

theorem foldl_eraseIdx_append {α : Type} :
    ∀ (L : List Nat) (a b : List α), L.Pairwise (fun x y => x > y) →
      (∀ i ∈ L, i < a.length) →
      L.foldl List.eraseIdx (a ++ b) = L.foldl List.eraseIdx a ++ b := by
  intro L
  induction L with
  | nil => intro a b _ _; rfl
  | cons j L ih =>
    intro a b hp hlt
    have hj : j < a.length := hlt j (List.mem_cons_self j L)
    rw [List.pairwise_cons] at hp
    simp only [List.foldl_cons]
    rw [List.eraseIdx_append_of_lt_length hj]
    apply ih _ _ hp.2
    intro i hi
    have h1 : i < j := hp.1 i hi
    rw [List.length_eraseIdx_of_lt hj]
    omega

theorem foldl_eraseIdx_eq_filter :
    ∀ (L : List Nat) (xs : FileList), (xs.map (fun f => f.name)).Nodup →
      L.Pairwise (fun x y => x > y) → (∀ i ∈ L, i < xs.length) →
      L.foldl List.eraseIdx xs =
        xs.filter (fun f => decide ((xs.map (fun f => f.name)).indexOf f.name ∉ L)) := by
  intro L
  induction L with
  | nil =>
    intro xs _ _ _
    simp
  | cons j L ih =>
    intro xs hnd hp hlt
    have hj : j < xs.length := hlt j (List.mem_cons_self j L)
    rw [List.pairwise_cons] at hp
    obtain ⟨a, x, b, rfl, ha⟩ : ∃ a x b, xs = a ++ x :: b ∧ a.length = j :=
      ⟨xs.take j, xs[j], xs.drop (j + 1), by
        rw [← List.drop_eq_getElem_cons hj, List.take_append_drop],
        by rw [List.length_take]; omega⟩
    subst ha
    simp only [List.map_append, List.map_cons] at hnd ⊢
    have hnd' := hnd
    rw [List.nodup_append] at hnd'
    obtain ⟨hna, hnxb, hdis⟩ := hnd'
    rw [List.nodup_cons] at hnxb
    have hxa : x.name ∉ a.map (fun f => f.name) := fun h => hdis h (List.mem_cons_self _ _)
    simp only [List.foldl_cons]
    have herase : (a ++ x :: b).eraseIdx a.length = a ++ b := by
      rw [List.eraseIdx_append_of_length_le (Nat.le_refl _)]
      simp
    rw [herase, foldl_eraseIdx_append L a b hp.2 (fun i hi => hp.1 i hi),
      ih a hna hp.2 (fun i hi => hp.1 i hi), List.filter_append, List.filter_cons]
    have hx : (a.map (fun f => f.name) ++ x.name :: b.map (fun f => f.name)).indexOf x.name
        = a.length := by
      rw [List.indexOf_append_of_not_mem hxa, List.indexOf_cons_self]
      simp
    have hfa : a.filter (fun f => decide ((a.map (fun f => f.name)).indexOf f.name ∉ L)) =
        a.filter (fun f => decide
          ((a.map (fun f => f.name) ++ x.name :: b.map (fun f => f.name)).indexOf f.name
            ∉ a.length :: L)) := by
      apply List.filter_congr
      intro f hf
      have hm : f.name ∈ a.map (fun f => f.name) := List.mem_map_of_mem _ hf
      rw [List.indexOf_append_of_mem hm]
      have hlt' : (a.map (fun f => f.name)).indexOf f.name < a.length := by
        have := List.indexOf_lt_length.2 hm
        simpa using this
      simp only [List.mem_cons, not_or, decide_eq_decide]
      constructor
      · intro h
        exact ⟨by omega, h⟩
      · intro h
        exact h.2
    have hfb : b.filter (fun f => decide
          ((a.map (fun f => f.name) ++ x.name :: b.map (fun f => f.name)).indexOf f.name
            ∉ a.length :: L)) = b := by
      rw [List.filter_eq_self]
      intro f hf
      have hm : f.name ∈ b.map (fun f => f.name) := List.mem_map_of_mem _ hf
      have hfa' : f.name ∉ a.map (fun f => f.name) :=
        fun h => hdis h (List.mem_cons_of_mem _ hm)
      have hne : x.name ≠ f.name := fun h => hnxb.1 (h ▸ hm)
      rw [List.indexOf_append_of_not_mem hfa', List.indexOf_cons_ne _ hne]
      simp only [List.length_map, List.mem_cons, not_or, decide_eq_true_eq]
      refine ⟨by omega, ?_⟩
      intro hmem
      have := hp.1 _ hmem
      omega
    rw [hfa, hfb, hx]
    simp

theorem removeEach_cast :
    ∀ (L : List Nat) (xs : FileList), L.Pairwise (fun x y => x > y) →
      (∀ i ∈ L, i < xs.length) →
      removeEach (L.map Int.ofNat) xs = Except.ok (L.foldl List.eraseIdx xs) := by
  intro L
  induction L with
  | nil => intro xs _ _; rfl
  | cons j L ih =>
    intro xs hp hlt
    have hj : j < xs.length := hlt j (List.mem_cons_self j L)
    rw [List.pairwise_cons] at hp
    simp only [List.map_cons, removeEach, qRemoveAt, List.foldl_cons]
    have hcond : (0 : Int) ≤ Int.ofNat j ∧ Int.ofNat j < (xs.length : Int) := by
      constructor
      · exact Int.ofNat_nonneg j
      · exact Int.ofNat_lt.2 hj
    rw [if_pos hcond]
    have ht : (Int.ofNat j).toNat = j := rfl
    simp only [ht]
    apply ih _ hp.2
    intro i hi
    have h1 : i < j := hp.1 i hi
    rw [List.length_eraseIdx_of_lt hj]
    omega

theorem sampleSort_contract : StdSort sampleSort greaterFloat := by
  intro l
  refine ⟨List.perm_insertionSort _ l, ?_⟩
  haveI : IsTotal Int (fun a b : Int => floatOfInt b ≤ floatOfInt a) :=
    ⟨fun a b => le_total (floatOfInt b) (floatOfInt a)⟩
  haveI : IsTrans Int (fun a b : Int => floatOfInt b ≤ floatOfInt a) :=
    ⟨fun a b c hab hbc => le_trans hbc hab⟩
  have hs := List.sorted_insertionSort (fun a b : Int => floatOfInt b ≤ floatOfInt a) l
  apply List.Pairwise.imp _ hs
  intro a b hab
  unfold greaterFloat
  exact decide_eq_false (by omega)

theorem floatOfInt_ofNat_of_le (k : Nat) (h : k ≤ 16777216) : floatOfInt (Int.ofNat k) = k := by
  unfold floatOfInt floatOfNat
  have h0 : ¬ (Int.ofNat k < 0) := not_lt.2 (Int.ofNat_nonneg k)
  rw [if_neg h0]
  have ht : (Int.ofNat k).toNat = k := rfl
  rw [ht, if_pos h]

/-- C13: let the input files have pairwise distinct names (and be at most 2^24 + 1, so that
every index converts to `float` exactly), and let `duplicates` hold distinct names drawn
from them, in whatever order the set hands them out.  Then the removal step, for every
`std::sort` that meets its contract, removes valid indices only and yields exactly the
input files whose name is not a duplicate, in their original order. -/
theorem removeDuplicates_eq_filter (sort : List Int → List Int)
    (hsort : StdSort sort greaterFloat) (inputFiles : FileList) (duplicates : List String)
    (hnames : (inputFiles.map (fun f => f.name)).Nodup)
    (hlen : inputFiles.length ≤ 16777217)
    (hdup : duplicates.Nodup)
    (hsub : ∀ d ∈ duplicates, d ∈ inputFiles.map (fun f => f.name)) :
    removeDuplicates sort inputFiles duplicates =
      Except.ok (inputFiles.filter (fun f => decide (f.name ∉ duplicates))) := by
  unfold removeDuplicates
  simp only
  generalize hN : inputFiles.map (fun f => f.name) = names at hnames hsub
  have hnlen : names.length = inputFiles.length := by rw [← hN]; simp
  -- the indices are the positions of the duplicates, as integers
  have hI : duplicates.map (qIndexOf names) =
      (duplicates.map (fun d => names.indexOf d)).map Int.ofNat := by
    rw [List.map_map]
    apply List.map_congr_left
    intro d hd
    unfold qIndexOf
    rw [if_pos (List.indexOf_lt_length.2 (hsub d hd))]
    rfl
  rw [hI]
  obtain ⟨hperm, hpair⟩ := hsort ((duplicates.map (fun d => names.indexOf d)).map Int.ofNat)
  generalize sort ((duplicates.map (fun d => names.indexOf d)).map Int.ofNat) = LI
    at hperm hpair
  -- every sorted index is a natural number
  have hLI : LI = (LI.map Int.toNat).map Int.ofNat := by
    rw [List.map_map]
    rw [eq_comm]
    conv_rhs => rw [← List.map_id LI]
    apply List.map_congr_left
    intro x hx
    have hx' := hperm.mem_iff.1 hx
    rw [List.mem_map] at hx'
    obtain ⟨k, -, rfl⟩ := hx'
    rfl
  have hpermL : (LI.map Int.toNat).Perm (duplicates.map (fun d => names.indexOf d)) := by
    have := hperm.map Int.toNat
    rw [List.map_map] at this
    have hid : (Int.toNat ∘ Int.ofNat) = id := by
      funext k
      rfl
    rw [hid, List.map_id] at this
    exact this
  generalize LI.map Int.toNat = L at hLI hpermL
  subst hLI
  have hNnodup : (duplicates.map (fun d => names.indexOf d)).Nodup := by
    apply List.Nodup.map_on _ hdup
    intro x hx y hy hxy
    exact (List.indexOf_inj (hsub x hx) (hsub y hy)).1 hxy
  have hLnodup : L.Nodup := hpermL.nodup_iff.2 hNnodup
  have hLlt : ∀ i ∈ L, i < inputFiles.length := by
    intro i hi
    have hi' := hpermL.mem_iff.1 hi
    rw [List.mem_map] at hi'
    obtain ⟨d, hd, rfl⟩ := hi'
    rw [← hnlen]
    exact List.indexOf_lt_length.2 (hsub d hd)
  have hLdesc : L.Pairwise (fun x y => x > y) := by
    rw [List.pairwise_map] at hpair
    have hboth := hpair.and hLnodup
    apply hboth.imp_of_mem
    intro a b ha hb hab
    obtain ⟨hg, hne⟩ := hab
    have ha' : a ≤ 16777216 := by have := hLlt a ha; omega
    have hb' : b ≤ 16777216 := by have := hLlt b hb; omega
    unfold greaterFloat at hg
    rw [floatOfInt_ofNat_of_le a ha', floatOfInt_ofNat_of_le b hb'] at hg
    have hle : ¬ ((b : Int) > (a : Int)) := of_decide_eq_false hg
    have hle' : b ≤ a := by omega
    omega
  rw [removeEach_cast L inputFiles hLdesc hLlt,
    foldl_eraseIdx_eq_filter L inputFiles (by rw [hN]; exact hnames) hLdesc hLlt, hN]
  congr 1
  apply List.filter_congr
  intro f hf
  have hfn : f.name ∈ names := by
    rw [← hN]
    exact List.mem_map_of_mem _ hf
  simp only [decide_eq_decide, not_iff_not]
  rw [hpermL.mem_iff, List.mem_map]
  constructor
  · rintro ⟨d, hd, hdi⟩
    have := (List.indexOf_inj (hsub d hd) hfn).1 hdi
    rw [← this]
    exact hd
  · intro hd
    exact ⟨f.name, hd, rfl⟩

/-- Five files with the names at indices 1 and 3 marked, handed out in ascending order of
index: the files at indices 0, 2 and 4 remain, in this order. -/
theorem removeDuplicates_eq_filter_witness :
    removeDuplicates sampleSort fiveFiles ["r1.jpg", "r3.jpg"] =
      Except.ok [fileNamed "r0.jpg", fileNamed "r2.jpg", fileNamed "r4.jpg"] ∧
    removeDuplicates sampleSort fiveFiles ["r1.jpg", "r3.jpg"] =
      Except.ok (fiveFiles.filter (fun f => decide (f.name ∉ ["r1.jpg", "r3.jpg"]))) :=
  ⟨rfl,
    removeDuplicates_eq_filter sampleSort sampleSort_contract fiveFiles ["r1.jpg", "r3.jpg"]
      (by decide) (by decide) (by decide) (by decide)⟩

theorem numberedName_injective : Function.Injective numberedName := by
  intro a b h
  unfold numberedName at h
  have h1 : List.replicate a 'r' = List.replicate b 'r' := by
    injection h
  have h2 := congrArg List.length h1
  simpa using h2

theorem numberedFiles_names (n : Nat) :
    (numberedFiles n).map (fun f => f.name) = (List.range n).map numberedName := by
  unfold numberedFiles
  rw [List.map_map]
  rfl

theorem numberedFiles_names_nodup (n : Nat) :
    ((numberedFiles n).map (fun f => f.name)).Nodup := by
  rw [numberedFiles_names]
  exact (List.nodup_range n).map numberedName_injective

theorem numberedFiles_length (n : Nat) : (numberedFiles n).length = n := by
  unfold numberedFiles
  rw [List.length_map, List.length_range]

theorem numberedFiles_getElem (n k : Nat) (h : k < (numberedFiles n).length) :
    (numberedFiles n)[k] = fileNamed (numberedName k) := by
  unfold numberedFiles
  rw [List.getElem_map, List.getElem_range]

theorem qIndexOf_numbered (n k : Nat) (h : k < n) :
    qIndexOf ((numberedFiles n).map (fun f => f.name)) (numberedName k) = Int.ofNat k := by
  have hnd := numberedFiles_names_nodup n
  have hlen : ((numberedFiles n).map (fun f => f.name)).length = n := by
    rw [List.length_map, numberedFiles_length]
  have hk : k < ((numberedFiles n).map (fun f => f.name)).length := by omega
  have hget : ((numberedFiles n).map (fun f => f.name))[k] = numberedName k := by
    rw [List.getElem_map, numberedFiles_getElem]
    rfl
  have hidx := List.indexOf_getElem hnd k hk
  rw [hget] at hidx
  unfold qIndexOf
  rw [hidx, if_pos hk]
  rfl

theorem sampleSort_float_equal :
    sampleSort [Int.ofNat 16777216, Int.ofNat 16777217]
      = [Int.ofNat 16777216, Int.ofNat 16777217] := by
  decide

theorem removeEach_two (xs : FileList) (a b : Nat) (ha : a < xs.length)
    (hb : b < (xs.eraseIdx a).length) :
    removeEach [Int.ofNat a, Int.ofNat b] xs = Except.ok ((xs.eraseIdx a).eraseIdx b) := by
  have h1 : (0 : Int) ≤ Int.ofNat a ∧ Int.ofNat a < (xs.length : Int) :=
    ⟨Int.ofNat_nonneg a, Int.ofNat_lt.2 ha⟩
  have h2 : (0 : Int) ≤ Int.ofNat b ∧ Int.ofNat b < ((xs.eraseIdx a).length : Int) :=
    ⟨Int.ofNat_nonneg b, Int.ofNat_lt.2 hb⟩
  have t1 : (Int.ofNat a).toNat = a := rfl
  have t2 : (Int.ofNat b).toNat = b := rfl
  simp only [removeEach, qRemoveAt, if_pos h1, t1, if_pos h2, t2]

theorem eraseIdx_ascending_keeps (xs : FileList) (a b : Nat) (hb : b = a + 1)
    (h : b + 1 < xs.length) (hb' : b < xs.length) :
    xs[b] ∈ (xs.eraseIdx a).eraseIdx b := by
  subst hb
  have hl1 : (xs.eraseIdx a).length = xs.length - 1 :=
    List.length_eraseIdx_of_lt (by omega)
  have hl2 : ((xs.eraseIdx a).eraseIdx (a + 1)).length = xs.length - 1 - 1 := by
    rw [List.length_eraseIdx_of_lt (by omega), hl1]
  have hk : a < ((xs.eraseIdx a).eraseIdx (a + 1)).length := by omega
  have hget : ((xs.eraseIdx a).eraseIdx (a + 1))[a] = xs[a + 1] := by
    rw [List.getElem_eraseIdx_of_lt _ _ _ hk (by omega),
      List.getElem_eraseIdx_of_ge _ _ _ _ (Nat.le_refl _)]
  rw [← hget]
  exact List.getElem_mem _

theorem ne_filter_of_mem (remaining xs : FileList) (duplicates : List String) (x : File)
    (hx : x ∈ remaining) (hd : x.name ∈ duplicates) :
    remaining ≠ xs.filter (fun f => decide (f.name ∉ duplicates)) := by
  intro heq
  rw [heq, List.mem_filter] at hx
  have := hx.2
  simp only [decide_eq_true_eq] at this
  exact this hd

/-- The failing input of C13: 16777219 files with distinct names, of which the two at
indices 16777216 and 16777217 are duplicates, handed out by the set in this order.  The two
indices are the same `float`, so `std::greater<float>` puts neither before the other and a
sort that meets the contract of `std::sort` (insertion sort, here) leaves them in ascending
order.  The first removal then shifts the second duplicate to index 16777216, the second
removal takes out the file of index 16777218 in its place, and the duplicate of index
16777217 remains. -/
theorem removeDuplicates_float_indices :
    ((numberedFiles 16777219).map (fun f => f.name)).Nodup ∧
    [numberedName 16777216, numberedName 16777217].Nodup ∧
    (∀ d ∈ [numberedName 16777216, numberedName 16777217],
      d ∈ (numberedFiles 16777219).map (fun f => f.name)) ∧
    StdSort sampleSort greaterFloat ∧
    greaterFloat 16777216 16777217 = false ∧ greaterFloat 16777217 16777216 = false ∧
    ∃ remaining : FileList,
      removeDuplicates sampleSort (numberedFiles 16777219)
        [numberedName 16777216, numberedName 16777217] = Except.ok remaining ∧
      fileNamed (numberedName 16777217) ∈ remaining ∧
      remaining ≠ (numberedFiles 16777219).filter
        (fun f => decide (f.name ∉ [numberedName 16777216, numberedName 16777217])) := by
  have hlen := numberedFiles_length 16777219
  have hne : numberedName 16777216 ≠ numberedName 16777217 :=
    fun h => absurd (numberedName_injective h) (by decide)
  have hmem : ∀ k, k < 16777219 →
      numberedName k ∈ (numberedFiles 16777219).map (fun f => f.name) := by
    intro k hk
    rw [numberedFiles_names]
    exact List.mem_map_of_mem _ (List.mem_range.2 hk)
  have hlen2 : ((numberedFiles 16777219).eraseIdx 16777216).length = 16777218 := by
    rw [List.length_eraseIdx_of_lt (by rw [hlen]; decide), hlen]
  have hb' : 16777217 < (numberedFiles 16777219).length := by rw [hlen]; decide
  have hkept : fileNamed (numberedName 16777217) ∈
      ((numberedFiles 16777219).eraseIdx 16777216).eraseIdx 16777217 := by
    have h := eraseIdx_ascending_keeps (numberedFiles 16777219) 16777216 16777217 rfl
      (by rw [hlen]; decide) hb'
    rw [numberedFiles_getElem] at h
    exact h
  refine ⟨numberedFiles_names_nodup _, ?_, ?_, sampleSort_contract, by decide, by decide,
    ((numberedFiles 16777219).eraseIdx 16777216).eraseIdx 16777217, ?_, hkept, ?_⟩
  · exact List.nodup_cons.2 ⟨by simpa using hne, List.nodup_singleton _⟩
  · intro d hd
    simp only [List.mem_cons, List.mem_singleton, List.not_mem_nil, or_false] at hd
    rcases hd with rfl | rfl
    · exact hmem _ (by decide)
    · exact hmem _ (by decide)
  · unfold removeDuplicates
    simp only [List.map_cons, List.map_nil]
    rw [qIndexOf_numbered _ _ (by decide), qIndexOf_numbered _ _ (by decide),
      sampleSort_float_equal]
    exact removeEach_two _ _ _ (by rw [hlen]; decide) (by rw [hlen2]; decide)
  · exact ne_filter_of_mem _ _ _ _ hkept (List.mem_cons_of_mem _ (List.mem_singleton_self _))

theorem splitChars_cons (sep c : Char) (cs : List Char) :
    splitChars sep (c :: cs) =
      match splitChars sep cs with
      | [] => [[c]]
      | w :: ws => if c = sep then [] :: w :: ws else (c :: w) :: ws := rfl

theorem splitChars_ne_nil (sep : Char) : ∀ l : List Char, splitChars sep l ≠ [] := by
  intro l
  cases l with
  | nil => simp [splitChars]
  | cons c cs =>
    unfold splitChars
    split
    · simp
    · split <;> simp

theorem splitChars_of_not_mem (sep : Char) :
    ∀ l : List Char, sep ∉ l → splitChars sep l = [l] := by
  intro l
  induction l with
  | nil => intro _; rfl
  | cons c cs ih =>
    intro h
    have hc : c ≠ sep := fun e => h (e ▸ List.mem_cons_self _ _)
    have hcs : sep ∉ cs := fun e => h (List.mem_cons_of_mem _ e)
    rw [splitChars_cons, ih hcs]
    simp [hc]

theorem splitChars_append_separator (sep : Char) (r : List Char) :
    ∀ l : List Char, sep ∉ l → splitChars sep (l ++ sep :: r) = l :: splitChars sep r := by
  intro l
  induction l with
  | nil =>
    intro _
    simp only [List.nil_append]
    cases hr : splitChars sep r with
    | nil => exact absurd hr (splitChars_ne_nil sep r)
    | cons w ws =>
      rw [splitChars_cons, hr]
      simp
  | cons c cs ih =>
    intro h
    have hc : c ≠ sep := fun e => h (e ▸ List.mem_cons_self _ _)
    have hcs : sep ∉ cs := fun e => h (List.mem_cons_of_mem _ e)
    simp only [List.cons_append]
    rw [splitChars_cons, ih hcs]
    simp [hc]

theorem splitChars_joinWith (sep : Char) :
    ∀ ls : List (List Char), ls ≠ [] → (∀ l ∈ ls, sep ∉ l) →
      splitChars sep (joinWith sep ls) = ls := by
  intro ls
  induction ls with
  | nil => intro h; exact absurd rfl h
  | cons l rest ih =>
    intro _ hall
    cases rest with
    | nil =>
      simp only [joinWith]
      exact splitChars_of_not_mem sep l (hall l (List.mem_cons_self _ _))
    | cons l' rest' =>
      simp only [joinWith]
      rw [splitChars_append_separator sep _ l (hall l (List.mem_cons_self _ _)),
        ih (by simp) (fun x hx => hall x (List.mem_cons_of_mem _ hx))]

theorem qSplit_joinLines (lines : List String) (hne : lines ≠ [])
    (hall : ∀ l ∈ lines, '\n' ∉ l.data) : qSplit '\n' (joinLines lines) = lines := by
  unfold qSplit joinLines
  simp only
  rw [splitChars_joinWith '\n' (lines.map String.data) (by simpa using hne)
    (by
      intro l hl
      rw [List.mem_map] at hl
      obtain ⟨x, hx, rfl⟩ := hl
      exact hall x hx)]
  rw [List.map_map]
  conv_rhs => rw [← List.map_id lines]
  apply List.map_congr_left
  intro x _
  rfl

theorem secondFields_of_two_fields :
    ∀ lines : List String, (∀ l ∈ lines, 2 ≤ (qSplit ',' l).length) →
      secondFields lines = Except.ok (lines.map (fun l => (qSplit ',' l).getD 1 "")) := by
  intro lines
  induction lines with
  | nil => intro _; rfl
  | cons l rest ih =>
    intro h
    have hl : 1 < (qSplit ',' l).length := h l (List.mem_cons_self _ _)
    unfold secondFields
    rw [List.getElem?_eq_getElem hl, ih (fun x hx => h x (List.mem_cons_of_mem _ hx))]
    simp [List.getD_eq_getElem?_getD, List.getElem?_eq_getElem hl]

/-- The claim C14 fails on a text that ends with a newline: the split on newlines leaves
an empty last piece, which has one field only, and the parse step reads its second field
all the same.  The same text without the newline at the end is parsed. -/
theorem parseTail_trailing_newline_counterexample :
    parseTail "Value,Target,Query\n0.9,r1.jpg,r0.jpg\n" = Except.error Fatal.invalidAccess ∧
    parseTail "Value,Target,Query\n" = Except.error Fatal.invalidAccess ∧
    qSplit ',' "" = [""] ∧
    parseTail "Value,Target,Query\n0.9,r1.jpg,r0.jpg" = Except.ok ["r1.jpg"] :=
  ⟨rfl, rfl, rfl, rfl⟩

/-- C14, amended: for every buffer text made of a header line followed by zero or more
lines, joined by newlines with no newline at the end, in which every line after the header
has at least two comma-separated fields, the parse step is total and recovers as the names
to remove exactly the second comma-separated field of every line after the header, in
order. -/
theorem parseTail_joinLines (header : String) (lines : List String)
    (hh : '\n' ∉ header.data) (hl : ∀ l ∈ lines, '\n' ∉ l.data)
    (hf : ∀ l ∈ lines, 2 ≤ (qSplit ',' l).length) :
    parseTail (joinLines (header :: lines)) =
      Except.ok (lines.map (fun l => (qSplit ',' l).getD 1 "")) := by
  unfold parseTail
  rw [qSplit_joinLines (header :: lines) (by simp)
    (by
      intro l hmem
      rcases List.mem_cons.1 hmem with rfl | h
      · exact hh
      · exact hl l h)]
  exact secondFields_of_two_fields lines hf

/-- A header and two lines of three fields each. -/
theorem parseTail_joinLines_witness :
    joinLines ["Value,Target,Query", "0.9,r1.jpg,r0.jpg", "0.8,r3.jpg,r2.jpg"] =
      "Value,Target,Query\n0.9,r1.jpg,r0.jpg\n0.8,r3.jpg,r2.jpg" ∧
    parseTail (joinLines ["Value,Target,Query", "0.9,r1.jpg,r0.jpg", "0.8,r3.jpg,r2.jpg"]) =
      Except.ok ["r1.jpg", "r3.jpg"] ∧
    parseTail (joinLines ["Value,Target,Query", "0.9,r1.jpg,r0.jpg", "0.8,r3.jpg,r2.jpg"]) =
      Except.ok (["0.9,r1.jpg,r0.jpg", "0.8,r3.jpg,r2.jpg"].map
        (fun l => (qSplit ',' l).getD 1 "")) :=
  ⟨rfl, rfl,
    parseTail_joinLines "Value,Target,Query" ["0.9,r1.jpg,r0.jpg", "0.8,r3.jpg,r2.jpg"]
      (by decide) (by decide) (by decide)⟩

/-! ### Conversion -/

theorem mem_convertWrites (m : Mat) (w : ScoreWrite) :
    w ∈ convertWrites m ↔
      (w.row < m.rows ∧ w.column < m.cols ∧ w.value = m.entry w.row w.column) := by
  unfold convertWrites
  simp only [List.mem_flatten, List.mem_map, List.mem_range]
  constructor
  · rintro ⟨l, ⟨i, hi, rfl⟩, hw⟩
    simp only [List.mem_map, List.mem_range] at hw
    obtain ⟨j, hj, rfl⟩ := hw
    exact ⟨hi, hj, rfl⟩
  · rintro ⟨hi, hj, hv⟩
    refine ⟨_, ⟨w.row, hi, rfl⟩, ?_⟩
    simp only [List.mem_map, List.mem_range]
    refine ⟨w.column, hj, ?_⟩
    cases w
    simp only at hv
    simp [hv]

theorem length_convertWrites (m : Mat) : (convertWrites m).length = m.rows * m.cols := by
  unfold convertWrites
  simp [List.length_flatten, Function.comp_def]

/-- C15: for a matrix of r rows and c columns whose header names t target files and q query
files, `Convert` with file type `Output` ends with the size-mismatch fatal error exactly
when neither (t = c and q = r) nor (c = 1 and t = r and q = r) holds; otherwise it makes
the output and writes the r * c entries, the entry m(i, j) at relative position (i, j).
With a file type other than `Format`, `Gallery` and `Output` it ends with the fatal error
for an unrecognized file type. -/
theorem Convert_output_sizes (E : ConvertEnv) (fileType inputFile outputFile : File) :
    (fileType.name = "Output" →
      ((Convert E fileType inputFile outputFile =
          Except.error (ConvertFatal.sizeMismatch (E.readMatrix inputFile).1.rows
            (E.readMatrix inputFile).1.cols
            (E.galleryFiles (E.readMatrix inputFile).2.2).length
            (E.galleryFiles (E.readMatrix inputFile).2.1).length)) ↔
        (¬ ((E.galleryFiles (E.readMatrix inputFile).2.1).length = (E.readMatrix inputFile).1.cols
            ∧ (E.galleryFiles (E.readMatrix inputFile).2.2).length
              = (E.readMatrix inputFile).1.rows) ∧
         ¬ ((E.readMatrix inputFile).1.cols = 1
            ∧ (E.galleryFiles (E.readMatrix inputFile).2.1).length
              = (E.readMatrix inputFile).1.rows
            ∧ (E.galleryFiles (E.readMatrix inputFile).2.2).length
              = (E.readMatrix inputFile).1.rows))) ∧
      ((∀ e, Convert E fileType inputFile outputFile ≠ Except.error e) →
        ∃ (created : Option (Nat × Nat)) (writes : List ScoreWrite),
          Convert E fileType inputFile outputFile =
            Except.ok (ConvertOutcome.output (E.galleryFiles (E.readMatrix inputFile).2.1)
              (E.galleryFiles (E.readMatrix inputFile).2.2) created writes) ∧
          writes.length = (E.readMatrix inputFile).1.rows * (E.readMatrix inputFile).1.cols ∧
          ∀ w : ScoreWrite, w ∈ writes ↔
            (w.row < (E.readMatrix inputFile).1.rows ∧
             w.column < (E.readMatrix inputFile).1.cols ∧
             w.value = (E.readMatrix inputFile).1.entry w.row w.column))) ∧
    (fileType.name ≠ "Format" → fileType.name ≠ "Gallery" → fileType.name ≠ "Output" →
      Convert E fileType inputFile outputFile =
        Except.error (ConvertFatal.unrecognizedFileType (E.flat fileType))) := by
  refine ⟨?_, ?_⟩
  · intro hout
    have hf : fileType.name ≠ "Format" := by rw [hout]; decide
    have hg : fileType.name ≠ "Gallery" := by rw [hout]; decide
    unfold Convert
    simp only [if_neg hf, if_neg hg, if_pos hout]
    by_cases hbad :
        ((E.galleryFiles (E.readMatrix inputFile).2.1).length ≠ (E.readMatrix inputFile).1.cols
          ∨ (E.galleryFiles (E.readMatrix inputFile).2.2).length
            ≠ (E.readMatrix inputFile).1.rows)
        ∧ ((E.readMatrix inputFile).1.cols ≠ 1
          ∨ (E.galleryFiles (E.readMatrix inputFile).2.1).length
            ≠ (E.readMatrix inputFile).1.rows
          ∨ (E.galleryFiles (E.readMatrix inputFile).2.2).length
            ≠ (E.readMatrix inputFile).1.rows)
    · rw [if_pos hbad]
      refine ⟨⟨fun _ => ?_, fun _ => rfl⟩, fun h => absurd rfl (h _)⟩
      obtain ⟨h1, h2⟩ := hbad
      constructor
      · rintro ⟨a, b⟩
        rcases h1 with h | h
        · exact h a
        · exact h b
      · rintro ⟨a, b, c⟩
        rcases h2 with h | h | h
        · exact h a
        · exact h b
        · exact h c
    · rw [if_neg hbad]
      refine ⟨⟨fun h => (by cases h), fun h => ?_⟩, fun _ => ⟨_, _, rfl, length_convertWrites _,
        mem_convertWrites _⟩⟩
      exfalso
      apply hbad
      obtain ⟨h1, h2⟩ := h
      constructor
      · by_contra hc
        push_neg at hc
        exact h1 hc
      · by_contra hc
        push_neg at hc
        exact h2 hc
  · intro hf hg ho
    unfold Convert
    simp only [if_neg hf, if_neg hg, if_neg ho]

/-- The sample matrix of two rows and three columns, whose header names three target
files and two query files, converted as an `Output`: the six entries are written in
row-major order.  A file type that is not known ends with the fatal error. -/
theorem Convert_output_sizes_witness :
    Convert sampleConvertEnv (fileNamed "Output") (fileNamed "in.mtx") (fileNamed "out.csv") =
      Except.ok (ConvertOutcome.output
        [fileNamed "t0.jpg", fileNamed "t1.jpg", fileNamed "t2.jpg"]
        [fileNamed "q0.jpg", fileNamed "q1.jpg"] none
        [{ value := 0, row := 0, column := 0 }, { value := 1, row := 0, column := 1 },
         { value := 2, row := 0, column := 2 }, { value := 10, row := 1, column := 0 },
         { value := 11, row := 1, column := 1 }, { value := 12, row := 1, column := 2 }]) ∧
    (∃ (created : Option (Nat × Nat)) (writes : List ScoreWrite),
      Convert sampleConvertEnv (fileNamed "Output") (fileNamed "in.mtx")
          (fileNamed "out.csv") =
        Except.ok (ConvertOutcome.output
          [fileNamed "t0.jpg", fileNamed "t1.jpg", fileNamed "t2.jpg"]
          [fileNamed "q0.jpg", fileNamed "q1.jpg"] created writes) ∧
      writes.length = 2 * 3 ∧
      ∀ w : ScoreWrite, w ∈ writes ↔
        (w.row < 2 ∧ w.column < 3 ∧ w.value = sampleMat.entry w.row w.column)) ∧
    Convert sampleConvertEnv (fileNamed "Simmat") (fileNamed "in.mtx") (fileNamed "out.csv") =
      Except.error (ConvertFatal.unrecognizedFileType "Simmat") :=
  ⟨rfl,
    ((Convert_output_sizes sampleConvertEnv (fileNamed "Output") (fileNamed "in.mtx")
      (fileNamed "out.csv")).1 rfl).2 (fun _ h => Except.noConfusion h),
    (Convert_output_sizes sampleConvertEnv (fileNamed "Simmat") (fileNamed "in.mtx")
      (fileNamed "out.csv")).2 (by decide) (by decide) (by decide)⟩

/-- A matrix of two rows and three columns whose header names three target files and
three query files: neither shape fits, and the conversion ends with the size-mismatch
fatal error before any entry is written. -/
theorem Convert_size_mismatch_sample :
    Convert { sampleConvertEnv with
        galleryFiles := fun _ => [fileNamed "t0.jpg", fileNamed "t1.jpg", fileNamed "t2.jpg"] }
      (fileNamed "Output") (fileNamed "in.mtx") (fileNamed "out.csv") =
      Except.error (ConvertFatal.sizeMismatch 2 3 3 3) :=
  rfl

/-! ### The shorthand for the target as query -/

/-- The failing input of C16: a raw list compared with the shorthand `.`.  The flag
`selfCompare` is computed before `.` is replaced by the target, so it is off: the row
gallery stays the raw list, the enrollment stage is put in front of the comparison stage,
and the records of the list go through the enrollment stage twice.  The call
`compare(A, A, out)` on the same list is a self-comparison that streams the enrolled column
gallery through the comparison stage alone. -/
theorem compare_dot_is_not_self_compare :
    ∃ (p q : ComparePlan) (r1 r2 : List (List Score)) (s1 s2 : Session SampleWorld),
      sampleVerifier.compare sampleRuntime (fileNamed "C.csv") (fileNamed ".")
        (fileNamed "out.mtx") sampleSession = Except.ok (CompareOutcome.ran p r1, s1) ∧
      sampleVerifier.compare sampleRuntime (fileNamed "C.csv") (fileNamed "C.csv")
        (fileNamed "out.mtx") sampleSession = Except.ok (CompareOutcome.ran q r2, s2) ∧
      p.queryGallery = fileNamed "C.csv" ∧ p.selfCompare = false ∧ q.selfCompare = true ∧
      p.rowGallery = fileNamed "C.csv" ∧ q.rowGallery = q.colEnrolledGallery ∧
      p.colEnrolledGallery = q.colEnrolledGallery ∧
      p.needEnrollRows = true ∧ q.needEnrollRows = false ∧
      p.enrollCompare = [RegionStage.enrollment, RegionStage.comparison] ∧
      q.enrollCompare = [RegionStage.comparison] ∧
      s1.stageInput.length = 4 ∧ s2.stageInput.length = 2 ∧ p ≠ q :=
  ⟨_, _, _, _, _, _, rfl, rfl, rfl, rfl, rfl, rfl, rfl, rfl, rfl, rfl, rfl, rfl, rfl, rfl,
    by decide⟩

/-- Whatever the target, a query given as `.` that is not the very file of the target
leaves the flag `selfCompare` off, and a target with a raw suffix is then streamed with
the enrollment stage in front. -/
theorem compare_dot_plan {T D W : Type} (R : Runtime T D W) (core : AlgorithmCore T D)
    (A dot output : File) (s s' : Session W) (plan : ComparePlan) (rows : List (List Score))
    (hdot : dot.name = ".") (hne : A ≠ dot)
    (h : core.compare R A dot output s = Except.ok (CompareOutcome.ran plan rows, s')) :
    plan.selfCompare = false ∧ plan.queryGallery = A ∧ plan.rowGallery = A ∧
    plan.needEnrollRows = !(["gal", "mem", "template"].contains (R.suffix A)) := by
  have k := compare_ok R core A dot output s s' _ h
  simp only [false_and, false_or, reduceCtorEq, hdot, if_true, compareOrientation_fst,
    compareOrientation_row, compareOrientation_col, gt_iff_lt, lt_self_iff_false, if_false,
    decide_False, decide_eq_false hne] at k
  obtain ⟨ce, st, t1, c1, g1, -, -, -, -, ho, -⟩ :=
    compareOriented_ok _ _ _ _ _ _ _ _ _ _ _ _ _ k
  cases ho
  simp [compareRowDecision_fst, compareRowDecision_snd]

end br
